import Mathlib

/-!
A verification development for the `datawarehouse` package (a DynamoDB/S3
backed versioned file warehouse).  The Python modules `datawarehouse/types.py`
and `datawarehouse/implementations.py` are shallowly embedded as executable
Lean definitions, and the properties claimed by the specification are settled
as theorems about those definitions.

Modelling conventions:
  - Python machine-level primitives that are external to the repository
    (hashlib digests, IEEE-754 float printing and parsing, the tz database)
    are abstracted: digests become injective tagging functions, finite floats
    are carried as the exact binary rationals they denote (Python repr/parse
    of finite floats is an exact round trip), tz database zones are carried by
    name.  NaN, infinities and invalid zone names are outside the model.
  - Fallible Python code (raise) becomes `Except Err`.
  - Python dicts become association lists (insertion ordered, unique keys).
-/

namespace DataWarehouse

/-! ## Part A: the type codec (`datawarehouse/types.py`) -/

/-- The Python runtime types that may appear as metadata values or in type
maps: the `.value` side of `types.TYPES`. -/
inductive PyType
  | noneT
  | strT
  | intT
  | boolT
  | floatT
  | decimalT
  | datetimeT
  | timedeltaT
  | tzPytzT
  | tzDateutilOffsetT
  | tzTimezoneT
  deriving DecidableEq, Repr

/-- The `types.TYPES` enum (type tags). -/
inductive TYPES
  | NONE
  | STR
  | INT
  | BOOL
  | FLOAT
  | DECIMAL
  | DATETIME
  | TIMEDELTA
  | TZFILE_PYTZ
  | TZOFFSET_DATEUTIL
  | TZOFFSET_TZ
  deriving DecidableEq, Repr

/-- `TYPES(...).value`: the Python type associated with each tag. -/
def TYPES.value : TYPES → PyType
  | .NONE => .noneT
  | .STR => .strT
  | .INT => .intT
  | .BOOL => .boolT
  | .FLOAT => .floatT
  | .DECIMAL => .decimalT
  | .DATETIME => .datetimeT
  | .TIMEDELTA => .timedeltaT
  | .TZFILE_PYTZ => .tzPytzT
  | .TZOFFSET_DATEUTIL => .tzDateutilOffsetT
  | .TZOFFSET_TZ => .tzTimezoneT

/-- `TYPES(py_type)`: enum lookup by value (total, since the 11 values are
pairwise distinct Python types). -/
def typesOfPyType : PyType → TYPES
  | .noneT => .NONE
  | .strT => .STR
  | .intT => .INT
  | .boolT => .BOOL
  | .floatT => .FLOAT
  | .decimalT => .DECIMAL
  | .datetimeT => .DATETIME
  | .timedeltaT => .TIMEDELTA
  | .tzPytzT => .TZFILE_PYTZ
  | .tzDateutilOffsetT => .TZOFFSET_DATEUTIL
  | .tzTimezoneT => .TZOFFSET_TZ

/-- The three supported timezone variants.
`pytz` zones are carried by their IANA name (the tz database itself is
external); the two fixed-offset variants carry their offset in whole seconds,
`dateutil.tz.tzoffset` additionally carries its name. -/
inductive Tz
  | pytz (zone : String)
  | dateutilOffset (tzname : String) (offsetSecs : Int)
  | tzTimezone (offsetSecs : Int)
  deriving DecidableEq, Repr

/-- A Python `datetime`: either naive (a wall-clock reading, carried as an
exact microsecond count so that `isoformat`/`fromisoformat` is a bijection)
or aware (the instant it denotes, as microseconds since the epoch, plus its
`tzinfo`). -/
inductive PyDatetime
  | naive (wallMicros : Int)
  | aware (instantMicros : Int) (tz : Tz)
  deriving DecidableEq, Repr

/-- The value space supported by the codec (`types.ValueTypes`).
Finite floats are the exact binary rationals they denote; `Decimal` values
are likewise exact; `timedelta` is an exact microsecond count. -/
inductive PyValue
  | none
  | str (s : String)
  | int (i : Int)
  | bool (b : Bool)
  | float (q : ℚ)
  | decimal (q : ℚ)
  | datetime (dt : PyDatetime)
  | timedelta (micros : Int)
  | tz (t : Tz)
  deriving DecidableEq, Repr

/-- `type(value)` for supported values. -/
def PyValue.pyType : PyValue → PyType
  | .none => .noneT
  | .str _ => .strT
  | .int _ => .intT
  | .bool _ => .boolT
  | .float _ => .floatT
  | .decimal _ => .decimalT
  | .datetime _ => .datetimeT
  | .timedelta _ => .timedeltaT
  | .tz (.pytz _) => .tzPytzT
  | .tz (.dateutilOffset _ _) => .tzDateutilOffsetT
  | .tz (.tzTimezone _) => .tzTimezoneT

/-- `isinstance(value, ty)` for supported values.  The only proper-subclass
pair within the supported value space is `bool <: int`; `pytz` zones are
already grouped under their `pytz.BaseTzInfo` base class by `PyType`. -/
def pyIsInstance (v : PyValue) (t : PyType) : Bool :=
  v.pyType == t || (v.pyType == .boolT && t == .intT)

/-- `types.NONE_TYPE_STR`, the literal rendering of `type(None)`. -/
def NONE_TYPE_STR : String := "<class \x27NoneType\x27>"

/-- `types.NAIVE_TAG`. -/
def NAIVE_TAG : String := "Naive"

/-- The encoded string produced by `types.encode`, kept structured by
provenance (each constructor records which `encode` branch produced the
string, together with the data the string denotes).  Only the `lit`
constructor holds a string written verbatim; the renderings of the other
constructors (decimal numerals and JSON arrays) always begin with a digit,
a sign or a bracket, and therefore never collide with the verbatim string
`NONE_TYPE_STR`. -/
inductive PyStr
  | lit (s : String)
  | ofInt (i : Int)
  | ofFloat (q : ℚ)
  | ofDecimal (q : ℚ)
  | jsonNaiveDt (wallMicros : Int)
  | jsonAwareDt (instantMicros : Int) (tzStr : PyStr) (tzTag : TYPES)
  | jsonNameOffset (tzname : String) (offsetSecs : Int)
  deriving DecidableEq, Repr

/-- Whether the encoded string equals the literal `NONE_TYPE_STR`
(the comparison `_str == NONE_TYPE_STR` in `types.decode`). -/
def PyStr.isNoneTypeLit : PyStr → Bool
  | .lit s => s == NONE_TYPE_STR
  | _ => false

/-- The actual Python string a `PyStr` denotes (used where the source treats
the encoded string as an ordinary `str`, e.g. the `TYPES.STR` decode branch).
Renderings of the non-`lit` constructors are denotational stand-ins; they are
never inspected by the embedded code. -/
def PyStr.render : PyStr → String
  | .lit s => s
  | .ofInt i => toString i
  | .ofFloat q => toString q
  | .ofDecimal q => toString q
  | .jsonNaiveDt w => "[" ++ toString w ++ ", Naive]"
  | .jsonAwareDt i tzS _ => "[" ++ toString i ++ ", " ++ tzS.render ++ "]"
  | .jsonNameOffset n o => "[" ++ n ++ ", " ++ toString o ++ "]"

/-- The `Encoded` named tuple of `types.py`. -/
structure Encoded where
  val_str : PyStr
  val_type : TYPES
  deriving DecidableEq, Repr

/-- `types.get_type` (the tag associated with a value; total on the
supported value space). -/
def get_type (v : PyValue) : TYPES := typesOfPyType v.pyType

/-- The recursive call `encode(value.tzinfo)` made by `types.encode` for
aware datetimes, and the tz branches of `encode` itself:
pytz zones encode as their `zone` name, `dateutil` offsets as
`json.dumps([tzname, offset_secs])`, `datetime.timezone` offsets as the
signed decimal seconds. -/
def encodeTz : Tz → PyStr × TYPES
  | .pytz zone => (.lit zone, .TZFILE_PYTZ)
  | .dateutilOffset n secs => (.jsonNameOffset n secs, .TZOFFSET_DATEUTIL)
  | .tzTimezone secs => (.ofInt secs, .TZOFFSET_TZ)

/-- `types.encode`. -/
def encode : PyValue → Encoded
  | .none => ⟨.lit NONE_TYPE_STR, .NONE⟩
  | .bool b => ⟨.ofInt (if b then 1 else 0), .BOOL⟩
  | .str s => ⟨.lit s, .STR⟩
  | .int i => ⟨.ofInt i, .INT⟩
  | .float q => ⟨.ofFloat q, .FLOAT⟩
  | .decimal q => ⟨.ofDecimal q, .DECIMAL⟩
  | .datetime (.naive w) => ⟨.jsonNaiveDt w, .DATETIME⟩
  | .datetime (.aware inst t) => ⟨.jsonAwareDt inst (encodeTz t).1 (encodeTz t).2, .DATETIME⟩
  | .timedelta micros => ⟨.ofFloat ((micros : ℚ) / 1000000), .TIMEDELTA⟩
  | .tz t => ⟨(encodeTz t).1, (encodeTz t).2⟩

/-- The error taxonomy of the embedded code: the three exception kinds of
`datawarehouse/exceptions.py` plus the Python builtins the source can raise. -/
inductive Err
  | argumentError
  | metadataError
  | operationError
  | valueError
  | typeError
  | keyError
  | indexError
  | conditionalCheckFailed
  deriving DecidableEq, Repr

/-- `int(_str)`: Python integer parsing of an encoded string. -/
def PyStr.toIntE : PyStr → Except Err Int
  | .ofInt i => .ok i
  | .lit s =>
    match s.toInt? with
    | some i => .ok i
    | Option.none => .error .valueError
  | _ => .error .valueError

/-- `float(_str)`: Python float parsing of an encoded string.  Parsing of
verbatim string literals is not modelled (no embedded code path feeds one
here); numeric renderings parse back exactly. -/
def PyStr.toFloatE : PyStr → Except Err ℚ
  | .ofFloat q => .ok q
  | .ofDecimal q => .ok q
  | .ofInt i => .ok (i : ℚ)
  | _ => .error .valueError

/-- `Decimal(_str)`. -/
def PyStr.toDecimalE : PyStr → Except Err ℚ
  | .ofDecimal q => .ok q
  | .ofFloat q => .ok q
  | .ofInt i => .ok (i : ℚ)
  | _ => .error .valueError

/-- `types.decode`, split on the components of the `Encoded` pair (the first
statement of the source destructures `_str, _type = encoded`).  The branch
order follows the source: the `TYPES.NONE` consistency check, then the
`NONE_TYPE_STR` short-circuit, then the per-tag chain.  The `DATETIME`
branch makes the source's recursive `decode` call on the embedded timezone
pair and rejects results that are not timezone values. -/
def decodeAux : PyStr → TYPES → Except Err PyValue
  | s, t =>
    if t = .NONE ∧ s.isNoneTypeLit = false then
      .error .valueError
    else if s.isNoneTypeLit then
      .ok .none
    else
      match t, s with
      | .STR, s => .ok (.str s.render)
      | .INT, s => (s.toIntE).map .int
      | .FLOAT, s => (s.toFloatE).map .float
      | .DECIMAL, s => (s.toDecimalE).map .decimal
      | .BOOL, s => (s.toIntE).map (fun i => .bool (i != 0))
      | .DATETIME, .jsonNaiveDt w => .ok (.datetime (.naive w))
      | .DATETIME, .jsonAwareDt inst tzS tzT =>
        match decodeAux tzS tzT with
        | .ok (.tz tz) => .ok (.datetime (.aware inst tz))
        | .ok _ => .error .valueError
        | .error e => .error e
      | .DATETIME, _ => .error .valueError
      | .TIMEDELTA, s => (s.toFloatE).map (fun q => .timedelta (round (q * 1000000)))
      | .TZFILE_PYTZ, .lit zone => .ok (.tz (.pytz zone))
      | .TZFILE_PYTZ, _ => .error .valueError
      | .TZOFFSET_DATEUTIL, .jsonNameOffset n secs => .ok (.tz (.dateutilOffset n secs))
      | .TZOFFSET_DATEUTIL, _ => .error .valueError
      | .TZOFFSET_TZ, s => (s.toIntE).map (fun i => .tz (.tzTimezone i))
      | .NONE, _ => .error .valueError

/-- `types.decode`. -/
def decode (e : Encoded) : Except Err PyValue := decodeAux e.val_str e.val_type

/-- Python `==` between timezone objects: `datetime.timezone` and
`dateutil.tz.tzoffset` compare by offset only (names are ignored); `pytz`
zones are compared by zone identity, i.e. by name. -/
def tzEq : Tz → Tz → Bool
  | .pytz a, .pytz b => a == b
  | .dateutilOffset _ oa, .dateutilOffset _ ob => oa == ob
  | .tzTimezone a, .tzTimezone b => a == b
  | _, _ => false

/-- The numeric Python value of a value in the numeric tower, when it has
one (`bool` counts as `0`/`1`). -/
def PyValue.numVal? : PyValue → Option ℚ
  | .int i => some (i : ℚ)
  | .bool b => some (if b then 1 else 0)
  | .float q => some q
  | .decimal q => some q
  | _ => Option.none

/-- Python `==` on supported values: numeric-tower values compare by value,
aware datetimes by instant, naive datetimes by wall clock (a naive and an
aware datetime are unequal), timezones as in `tzEq`. -/
def pyEq (a b : PyValue) : Bool :=
  match a.numVal?, b.numVal? with
  | some x, some y => x == y
  | _, _ =>
    match a, b with
    | .none, .none => true
    | .str s, .str s' => s == s'
    | .datetime (.naive w), .datetime (.naive w') => w == w'
    | .datetime (.aware i _), .datetime (.aware i' _) => i == i'
    | .timedelta x, .timedelta y => x == y
    | .tz t, .tz t' => tzEq t t'
    | _, _ => false

/-! ### Round-trip theorems (claims C1 and C9) -/

/-- Whether a timezone is a pytz zone whose name is the `NONE_TYPE_STR`
literal (no real tz-database zone is so named; the case is representable
because the model carries zones by name). -/
def Tz.isNoneNamedPytz : Tz → Bool
  | .pytz zone => zone == NONE_TYPE_STR
  | _ => false

/-- Whether a supported value's encoded string collides with the
`NONE_TYPE_STR` literal: exactly the string value the `NONE_TYPE_STR` rendering of `type(None)`
itself and pytz zones of that name. -/
def PyValue.encodesAsNoneTypeLit : PyValue → Bool
  | .str s => s == NONE_TYPE_STR
  | .tz t => t.isNoneNamedPytz
  | .datetime (.aware _ t) => t.isNoneNamedPytz
  | _ => false

theorem decode_encodeTz (t : Tz) (h : t.isNoneNamedPytz = false) :
    decodeAux (encodeTz t).1 (encodeTz t).2 = .ok (.tz t) := by
  cases t with
  | pytz zone =>
    simp only [Tz.isNoneNamedPytz, beq_eq_false_iff_ne, ne_eq] at h
    simp [encodeTz, decodeAux, PyStr.isNoneTypeLit, h]
  | dateutilOffset n secs =>
    simp [encodeTz, decodeAux, PyStr.isNoneTypeLit]
  | tzTimezone secs =>
    simp [encodeTz, decodeAux, PyStr.isNoneTypeLit, PyStr.toIntE, Except.map]

/-- Claim C1 (amended): for every supported value whose encoded string is not
the `NONE_TYPE_STR` literal, `decode (encode v)` succeeds and returns `v`
(datetimes are compared as instants, which the model's representation makes
definitional). -/
theorem decode_encode_roundtrip (v : PyValue) (h : v.encodesAsNoneTypeLit = false) :
    decode (encode v) = .ok v := by
  cases v with
  | none =>
    simp [encode, decode, decodeAux, PyStr.isNoneTypeLit]
  | str s =>
    simp only [PyValue.encodesAsNoneTypeLit] at h
    simp [encode, decode, decodeAux, PyStr.isNoneTypeLit, h, PyStr.render]
  | int i =>
    simp [encode, decode, decodeAux, PyStr.isNoneTypeLit, PyStr.toIntE, Except.map]
  | bool b =>
    cases b <;>
      simp [encode, decode, decodeAux, PyStr.isNoneTypeLit, PyStr.toIntE, Except.map]
  | float q =>
    simp [encode, decode, decodeAux, PyStr.isNoneTypeLit, PyStr.toFloatE, Except.map]
  | decimal q =>
    simp [encode, decode, decodeAux, PyStr.isNoneTypeLit, PyStr.toDecimalE, Except.map]
  | datetime dt =>
    cases dt with
    | naive w => simp [encode, decode, decodeAux, PyStr.isNoneTypeLit]
    | aware inst t =>
      have ht : t.isNoneNamedPytz = false := by
        simpa [PyValue.encodesAsNoneTypeLit] using h
      simp only [encode, decode]
      rw [decodeAux]
      simp only [PyStr.isNoneTypeLit]
      rw [decode_encodeTz t ht]
      simp
  | timedelta micros =>
    simp only [encode, decode, decodeAux, PyStr.isNoneTypeLit, PyStr.toFloatE, Except.map]
    have : ((micros : ℚ) / 1000000) * 1000000 = (micros : ℚ) := by
      field_simp
    simp [this]
  | tz t =>
    have ht : t.isNoneNamedPytz = false := by
      simpa [PyValue.encodesAsNoneTypeLit] using h
    simpa [encode, decode] using decode_encodeTz t ht

/-- Witness for the amended claim C1 at a concrete input. -/
theorem decode_encode_roundtrip_witness :
    (PyValue.int 3).encodesAsNoneTypeLit = false ∧ decode (encode (.int 3)) = .ok (.int 3) :=
  ⟨by decide, decode_encode_roundtrip (.int 3) (by decide)⟩

/-- Claim C1 counterexample: the claim "decode(encode(v)) == v for every
supported value v" fails at the string value the `NONE_TYPE_STR` rendering of `type(None)`, which
decodes back to `None`. -/
theorem decode_encode_not_universal :
    decode (encode (.str NONE_TYPE_STR)) = .ok .none ∧
      (PyValue.none ≠ .str NONE_TYPE_STR) := by
  constructor
  · rfl
  · decide

/-- Claim C9: `decode` returns `None` for any `Encoded` whose string
component equals the literal the `NONE_TYPE_STR` rendering of `type(None)`, regardless of the type
tag; in particular with the `STR` tag it yields `None` rather than the
string itself. -/
theorem decode_noneTypeLit_any_tag :
    (∀ t : TYPES, decode ⟨.lit NONE_TYPE_STR, t⟩ = .ok .none) ∧
      decode ⟨.lit NONE_TYPE_STR, .STR⟩ ≠ .ok (.str NONE_TYPE_STR) := by
  constructor
  · intro t
    cases t <;> rfl
  · intro h
    exact absurd (Except.ok.inj h) (by decide)

/-! ## Part B: the warehouse engine (`datawarehouse/implementations.py`) -/

/-- A Python dict of metadata values: an insertion-ordered association list
with unique keys. -/
abbrev Metadata := List (String × PyValue)

/-- Lookup in an association list (Python `d.get(k)`). -/
def alistGet? {α : Type} (m : List (String × α)) (k : String) : Option α :=
  match m.find? (fun p => p.1 == k) with
  | some p => some p.2
  | Option.none => Option.none

/-- Python `k in d`. -/
def alistHas {α : Type} (m : List (String × α)) (k : String) : Bool :=
  (alistGet? m k).isSome

/-- Python `d[k] = v`: replace in place when the key exists, append
otherwise. -/
def alistSet {α : Type} : List (String × α) → String → α → List (String × α)
  | [], k, v => [(k, v)]
  | p :: t, k, v => if p.1 == k then (k, v) :: t else p :: alistSet t k v

/-- `DataWarehouseInterface` field-name constants. -/
def COLLECTION_ID : String := "feed_id"

def CONTENT_START_FIELD : String := "content_start"

def CONTENT_END_FIELD : String := "content_end"

def CONTENT_RES_FIELD : String := "content_resolution"

def LAST_MODIFIED_FIELD : String := "last-modified"

def RETRIEVED_FIELD : String := "retrieved_date"

def RELEASE_FIELD : String := "release_date"

def VERSION_FIELD : String := "source_version"

/-- `DynamoWarehouse.SRC.HASH`, the source-table hash key column. -/
def SRC_HASH : String := "file_key"

def MD5_FIELD : String := "md5"

def BYTES_FIELD : String := "bytes"

def S3_KEY_FIELD : String := "s3_key"

/-- `DynamoWarehouse.EXTENDED_MAPS`: the engine's fixed type extensions for
the metadata fields it manages itself. -/
def EXTENDED_MAPS : List (String × PyType) :=
  [(CONTENT_START_FIELD, .datetimeT), (CONTENT_END_FIELD, .datetimeT),
   (CONTENT_RES_FIELD, .timedeltaT), (LAST_MODIFIED_FIELD, .datetimeT),
   (RETRIEVED_FIELD, .datetimeT), (RELEASE_FIELD, .datetimeT),
   (MD5_FIELD, .strT), (BYTES_FIELD, .boolT), (S3_KEY_FIELD, .strT)]

/-- A registered parser (the `DynamoWarehouse.PAR` fields). -/
structure ParserInfo where
  primary_key_fields : List String
  row_type_map : List (String × PyType)
  timezone : Tz
  isDefault : Bool
  deriving DecidableEq, Repr

/-- A registry-table entry (the `DynamoWarehouse.REG` fields). -/
structure RegEntry where
  feed_id : String
  database : String
  collection : String
  primary_key_fields : List String
  required_metadata_fields : List String
  metadata_type_map : List (String × PyType)
  parsers : List (String × ParserInfo)
  deriving DecidableEq, Repr

/-- A DynamoDB cell: a string or a number attribute, carrying the encoded
string (`{"S": val}` or `{"N": val}`). -/
inductive DCell
  | S (val : PyStr)
  | N (val : PyStr)
  deriving DecidableEq, Repr

/-- A DynamoDB item of the source table. -/
structure DynamoRow where
  cells : List (String × DCell)
  deriving DecidableEq, Repr

/-- The warehouse state: the selected database/collection, the registry
table, the source table, and the two S3 buckets (key to object body).
The TTL registry cache is not modelled: cached reads return the same entry
the table holds, by value (which subsumes the deep copies). -/
structure Warehouse where
  database : String
  collection : String
  registry : List (String × RegEntry)
  sourceTable : List DynamoRow
  s3Source : List (String × String)
  s3Parsed : List (String × String)
  bucketPfx : Option String
  deriving Repr

/-- An `inveniautils.stream.SeekableStream`: an opaque body plus a
text/binary flag and a metadata dict. -/
structure SFile where
  content : String
  is_bytes : Bool
  metadata : Metadata
  deriving DecidableEq, Repr

/-- `DataWarehouseInterface.STATUS`. -/
inductive Status
  | SUCCESS
  | ALREADY_EXIST
  deriving DecidableEq, Repr

/-- The dict returned by `store`. -/
structure StoreResp where
  primary_key : List PyValue
  source_version : String
  status_code : Status
  parser_name : Option String
  deriving DecidableEq, Repr

/-- `hashlib.sha256(s.encode()).hexdigest()`: an external primitive,
modelled as an injective tagging function (only determinism and injectivity
are relied upon; digests never collide with other string spaces). -/
def sha256_hexdigest (s : String) : String := "sha256." ++ s

/-- `utils.get_md5`: the MD5 hex digest of the file body; external,
modelled as an injective tagging function of the body. -/
def get_md5 (file : SFile) : String := "md5." ++ file.content

/-- `inveniautils.timestamp.from_datetime`.  Modelled from the spec:
datetimes are serialized as decimal epoch seconds (naive wall clocks are
read against UTC). -/
def timestampFromDatetime : PyDatetime → Int
  | .naive w => w / 1000000
  | .aware inst _ => inst / 1000000

/-- `inveniautils.timestamp.to_datetime`.  Modelled from the spec: the
UTC-aware datetime at the given epoch second. -/
def timestampToDatetime (n : Int) : PyDatetime := .aware (n * 1000000) (.pytz "UTC")

/-- `DynamoWarehouse._get_collection_id` with no arguments
(`database + "_" + collection` for the selected collection). -/
def _get_collection_id (wh : Warehouse) : String := wh.database ++ "_" ++ wh.collection

/-- `DynamoWarehouse._get_registry_entry`: the registry row for a
collection, `OperationError` when absent. -/
def _get_registry_entry (wh : Warehouse) (db coll : String) : Except Err RegEntry :=
  match alistGet? wh.registry (db ++ "_" ++ coll) with
  | some e => .ok e
  | Option.none => .error .operationError

/-- The registry entry of the currently selected collection (the lookup all
collection properties perform). -/
def getSelectedEntry (wh : Warehouse) : Except Err RegEntry :=
  _get_registry_entry wh wh.database wh.collection

/-- The `required_metadata_fields` property: primary-key fields first, then
the extra required fields, deduplicated in order. -/
def requiredMetadataFieldsOf (e : RegEntry) : List String :=
  e.required_metadata_fields.foldl
    (fun acc k => if acc.contains k then acc else acc ++ [k]) e.primary_key_fields

/-- `DynamoWarehouse.get_primary_key`: extract primary-key values from a
file's metadata; `MetadataError` when a key field is missing or its exact
runtime type (`type(val)`) differs from the declared type. -/
def get_primary_key (wh : Warehouse) (metadata : Metadata) : Except Err (List PyValue) := do
  let e ← getSelectedEntry wh
  e.primary_key_fields.foldlM
    (fun vals key => do
      match alistGet? metadata key with
      | Option.none => .error .metadataError
      | some val =>
        match alistGet? e.metadata_type_map key with
        | Option.none => .error .keyError
        | some t =>
          if val.pyType ≠ t then .error .metadataError
          else .ok (vals ++ [val]))
    []

/-- The `any(not isinstance(...))` loop of `_validate_primary_keys`
(short-circuiting, so a missing type-map entry after a failing field is not
reached). -/
def anyInvalidKey (tm : List (String × PyType)) : List (String × PyValue) → Except Err Bool
  | [] => .ok false
  | (k, v) :: rest =>
    match alistGet? tm k with
    | Option.none => .error .keyError
    | some t => if pyIsInstance v t then anyInvalidKey tm rest else .ok true

/-- `DynamoWarehouse._validate_primary_keys`: `ArgumentError` unless the
tuple has the right arity and every value is an `isinstance` of its declared
type (so subclass instances, e.g. `bool` for `int`, are accepted). -/
def _validate_primary_keys (wh : Warehouse) (primary_key : List PyValue) : Except Err Unit := do
  let e ← getSelectedEntry wh
  if primary_key.length ≠ e.primary_key_fields.length then .error .argumentError
  else do
    let bad ← anyInvalidKey e.metadata_type_map (e.primary_key_fields.zip primary_key)
    if bad then .error .argumentError else .ok ()

/-- `DynamoWarehouse._serialize_primary_key`: join the values with `"_"`,
datetimes as decimal epoch seconds, everything else through the codec. -/
def _serialize_primary_key (primary_key : List PyValue) : String :=
  String.intercalate "_"
    (primary_key.map (fun v =>
      match v with
      | .datetime d => toString (timestampFromDatetime d)
      | _ => (encode v).val_str.render))

/-- `DynamoWarehouse._generate_hash_key` on a primary-key tuple. -/
def _generate_hash_key_vals (wh : Warehouse) (primary_key : List PyValue) : Except Err String := do
  _validate_primary_keys wh primary_key
  .ok (wh.database ++ "/" ++ wh.collection ++ "/"
      ++ sha256_hexdigest (_serialize_primary_key primary_key))

/-- `DynamoWarehouse._generate_hash_key` on a metadata dict (extracts the
primary key first). -/
def _generate_hash_key_meta (wh : Warehouse) (metadata : Metadata) : Except Err String := do
  let pk ← get_primary_key wh metadata
  _generate_hash_key_vals wh pk

/-- `DynamoWarehouse._generate_range_key`: `<epoch_of_retrieved_date>_<uid>`.
The random 8-hex uuid fragment is supplied by the caller (`uid`), making the
randomness an explicit input. -/
def _generate_range_key (metadata : Metadata) (uid : String) : Except Err String :=
  match alistGet? metadata RETRIEVED_FIELD with
  | Option.none => .error .metadataError
  | some (.datetime d) => .ok (toString (timestampFromDatetime d) ++ "_" ++ uid)
  | some _ => .error .typeError

/-- Splitting a character list on a separator (all occurrences). -/
def splitCharsOn (c : Char) : List Char → List (List Char)
  | [] => [[]]
  | a :: t =>
    match splitCharsOn c t with
    | [] => if a = c then [[], []] else [[a]]
    | g :: gs => if a = c then [] :: g :: gs else (a :: g) :: gs

/-- Python `s.split("/")` (an executable stand-in for the string split
primitive; `split("/", 2)` is recovered by re-joining the tail). -/
def splitOnSlash (s : String) : List String :=
  (splitCharsOn '/' s.data).map (fun l => ⟨l⟩)

/-- `DynamoWarehouse._generate_s3_key`: split the hash key back into
`db/coll/<digest>`, prepend the version to the digest, insert the parser
name for parsed files and the optional bucket prefix in front. -/
def _generate_s3_key (wh : Warehouse) (hash_key range_key : String)
    (parserName : Option String) : Except Err String :=
  match splitOnSlash hash_key with
  | db :: coll :: r :: rest =>
    let fileKey := range_key ++ "_" ++ String.intercalate "/" (r :: rest)
    let s3key :=
      match parserName with
      | some p => db ++ "/" ++ coll ++ "/" ++ p ++ "/" ++ fileKey
      | Option.none => db ++ "/" ++ coll ++ "/" ++ fileKey
    match wh.bucketPfx with
    | some pfx => .ok (pfx ++ "/" ++ s3key)
    | Option.none => .ok s3key
  | _ => .error .valueError

/-- `DynamoWarehouse._validate_fields`: all required fields (collection
required fields, the engine's fixed set, and `content_start` for parsed
files) must be present as keys. -/
def _validate_fields (wh : Warehouse) (metadata : Metadata) (parsedFile : Bool) : Except Err Unit := do
  let e ← getSelectedEntry wh
  let required := requiredMetadataFieldsOf e
      ++ [RETRIEVED_FIELD, RELEASE_FIELD, COLLECTION_ID, MD5_FIELD, BYTES_FIELD]
  let required := if parsedFile then required ++ [CONTENT_START_FIELD] else required
  if required.all (fun k => alistHas metadata k) then .ok () else .error .metadataError

/-- `DynamoWarehouse._type`: the declared type of a metadata field - the
collection type map first, the engine's fixed extensions as fallback.
(`_type` is a method reading the selected collection's registry entry; the
entry is passed explicitly here.) -/
def _typeOf (e : RegEntry) (key : String) : Option PyType :=
  match alistGet? e.metadata_type_map key with
  | some t => some t
  | Option.none => alistGet? EXTENDED_MAPS key

/-- The per-field body of the `_encode_metadata` loop: declared-type
mismatches raise `MetadataError` unless the value is `None` and the field is
not required; datetime-typed fields become epoch seconds; other typed
fields (and untyped strings) go through the codec; untyped non-string
values are dropped (with a warning in the source). -/
def encodeFieldStep (e : RegEntry) (requiredFields : List String)
    (acc : List (String × PyStr)) (kv : String × PyValue) : Except Err (List (String × PyStr)) :=
  let (k, v) := kv
  match _typeOf e k with
  | some ft =>
    if ft ≠ (get_type v).value then
      if v = .none ∧ ¬ requiredFields.contains k then
        .ok (acc ++ [(k, (encode v).val_str)])
      else .error .metadataError
    else if ft = .datetimeT then
      match v with
      | .datetime d => .ok (acc ++ [(k, .ofInt (timestampFromDatetime d))])
      | _ => .error .typeError
    else .ok (acc ++ [(k, (encode v).val_str)])
  | Option.none =>
    if (get_type v).value = .strT then .ok (acc ++ [(k, (encode v).val_str)])
    else .ok acc

/-- `DynamoWarehouse._encode_metadata`: encode metadata values to strings,
field by field. -/
def _encode_metadata (wh : Warehouse) (entry : Metadata) : Except Err (List (String × PyStr)) := do
  let e ← getSelectedEntry wh
  entry.foldlM (encodeFieldStep e ([RETRIEVED_FIELD, RELEASE_FIELD] ++ requiredMetadataFieldsOf e)) []

/-- `DynamoWarehouse._format_dynamo`: a cell is numeric exactly when the
field's declared type is in `number_types = (datetime, int)`; all other
cells are strings. -/
def _format_dynamo (e : RegEntry) (entry : List (String × PyStr)) : List (String × DCell) :=
  entry.map (fun kv =>
    (kv.1,
      if _typeOf e kv.1 = some .datetimeT ∨ _typeOf e kv.1 = some .intT then DCell.N kv.2
      else DCell.S kv.2))

/-- `DynamoWarehouse._sanitize_dynamo`: strip the cell type markers. -/
def _sanitize_dynamo (item : List (String × DCell)) : List (String × PyStr) :=
  item.map (fun kv => (kv.1, match kv.2 with | .S v => v | .N v => v))

/-- The `default_parser_name` property: `OperationError` when the collection
has no parsers; the first parser marked default otherwise (a defensive
`ValueError` when none is marked). -/
def default_parser_name (e : RegEntry) : Except Err String :=
  if e.parsers.isEmpty then .error .operationError
  else
    match e.parsers.find? (fun p => p.2.isDefault) with
    | some p => .ok p.1
    | Option.none => .error .valueError

/-- The `default_parser_timezone` property. -/
def default_parser_timezone (e : RegEntry) : Except Err Tz := do
  let n ← default_parser_name e
  match alistGet? e.parsers n with
  | some info => .ok info.timezone
  | Option.none => .error .keyError

/-- `DynamoWarehouse._decode_metadata`: datetime-typed fields are decoded
from their epoch seconds and re-localised into the default parser's
timezone (kept as returned by `to_datetime` when the collection has no
parsers); other typed fields go through the codec; untyped fields stay
strings. -/
def _decode_metadata (wh : Warehouse) (entry : List (String × PyStr)) : Except Err Metadata := do
  let e ← getSelectedEntry wh
  entry.foldlM
    (fun acc kv => do
      let (key, val) := kv
      match _typeOf e key with
      | some .datetimeT => do
        let n ← val.toIntE
        let dt := timestampToDatetime n
        match default_parser_timezone e with
        | .ok tz =>
          -- `astimezone` preserves the instant and swaps the tzinfo
          match dt with
          | .aware inst _ => .ok (acc ++ [(key, .datetime (.aware inst tz))])
          | .naive w => .ok (acc ++ [(key, .datetime (.naive w))])
        | .error .operationError => .ok (acc ++ [(key, .datetime dt)])
        | .error err => .error err
      | some ft => do
        let v ← decodeAux val (typesOfPyType ft)
        .ok (acc ++ [(key, v)])
      | Option.none => .ok (acc ++ [(key, .str val.render)]))
    []

/-- The string value of a row attribute (DynamoDB key attributes are string
cells; the stored encoded string is rendered for comparison). -/
def cellString (r : DynamoRow) (f : String) : Option String :=
  match alistGet? r.cells f with
  | some (.S v) => some v.render
  | some (.N v) => some v.render
  | Option.none => Option.none

/-- The `(file_key, source_version)` key of a row. -/
def rowKey (r : DynamoRow) : Option String × Option String :=
  (cellString r SRC_HASH, cellString r VERSION_FIELD)

/-- `put_item` with
`attribute_not_exists(file_key) AND attribute_not_exists(source_version)`:
the insert fails with a conditional-check error when an item with the same
primary key already exists. -/
def putItemNew (table : List DynamoRow) (item : DynamoRow) : Except Err (List DynamoRow) :=
  if table.any (fun r => decide (rowKey r = rowKey item)) then .error .conditionalCheckFailed
  else .ok (table ++ [item])

/-- `DynamoWarehouse._insert_source_table_item`. -/
def _insert_source_table_item (wh : Warehouse) (metadata : Metadata) : Except Err Warehouse := do
  _validate_fields wh metadata false
  let e ← getSelectedEntry wh
  let encoded ← _encode_metadata wh metadata
  let table ← putItemNew wh.sourceTable ⟨_format_dynamo e encoded⟩
  .ok { wh with sourceTable := table }

/-- Insertion into a sorted list (used to model the index store's ordering
of query results by sort key). -/
def insertLe {α : Type} (le : α → α → Bool) (a : α) : List α → List α
  | [] => [a]
  | b :: t => if le a b then a :: b :: t else b :: insertLe le a t

/-- Insertion sort. -/
def sortLe {α : Type} (le : α → α → Bool) : List α → List α
  | [] => []
  | a :: t => insertLe le a (sortLe le t)

/-- The sort-key value of a source-table row under the primary index. -/
def versionKeyOf (r : DynamoRow) : String := (cellString r VERSION_FIELD).getD ""

/-- The query issued by `retrieve_versions`
(`_file_query_criteria` + `_query_source_table`): all rows with the given
hash key, ordered by `source_version` (string comparison), ascending when
`ScanIndexForward` is true. -/
def evalFileQuery (table : List DynamoRow) (hashVal : String) (ascending : Bool) : List DynamoRow :=
  let hits := table.filter (fun r => cellString r SRC_HASH == some hashVal)
  let sorted := sortLe (fun a b => decide (versionKeyOf a ≤ versionKeyOf b)) hits
  if ascending then sorted else sorted.reverse

/-- `DynamoWarehouse._get_source_table_item`: direct `(hash, range)` get,
decoded; `OperationError` when the item does not exist. -/
def _get_source_table_item (wh : Warehouse) (hash_key range_key : String) : Except Err Metadata := do
  match wh.sourceTable.find? (fun r => decide (rowKey r = (some hash_key, some range_key))) with
  | some r => _decode_metadata wh (_sanitize_dynamo r.cells)
  | Option.none => .error .operationError

/-- `DynamoWarehouse._update_source_table_item`: rejects an empty update
map, encodes the updates (which may raise), rejects updates touching a
primary-key field or `retrieved_date`, then issues the conditional update,
which fails with `OperationError` when the row does not exist.  (When every
key of a non-empty map is dropped by the encoder the source hits an
`IndexError` building the update expression.) -/
def _update_source_table_item (wh : Warehouse) (hash_key range_key : String)
    (update_map : Metadata) : Except Err Warehouse := do
  if update_map.isEmpty then .error .argumentError
  else do
    let e ← getSelectedEntry wh
    let illegal := e.primary_key_fields ++ [RETRIEVED_FIELD]
    let encoded ← _encode_metadata wh update_map
    let formatted := _format_dynamo e encoded
    if formatted.any (fun kv => illegal.contains kv.1) then .error .metadataError
    else if formatted.isEmpty then .error .indexError
    else if wh.sourceTable.any (fun r => decide (rowKey r = (some hash_key, some range_key))) then
      .ok { wh with sourceTable := wh.sourceTable.map (fun r =>
        if rowKey r = (some hash_key, some range_key) then
          ⟨formatted.foldl (fun cells kv => alistSet cells kv.1 kv.2) r.cells⟩
        else r) }
    else .error .operationError

/-- `DynamoWarehouse.update_metadata_item`. -/
def update_metadata_item (wh : Warehouse) (primary_key : List PyValue)
    (source_version : String) (update_map : Metadata) : Except Err Warehouse := do
  let hash_key ← _generate_hash_key_vals wh primary_key
  _update_source_table_item wh hash_key source_version update_map

/-- `DynamoWarehouse.get_source_version`: the `source_version` metadata
value, which must be present and a string. -/
def get_source_version (metadata : Metadata) : Except Err String :=
  match alistGet? metadata VERSION_FIELD with
  | some (.str s) => .ok s
  | Option.none => .error .metadataError
  | some _ => .error .metadataError

/-- The metadata value at a key, which must be present (`KeyError`) and a
string (the `cast(str, ...)` on `metadata[...]`). -/
def requireStr (m : Metadata) (k : String) : Except Err String :=
  match alistGet? m k with
  | some (.str s) => .ok s
  | some _ => .error .typeError
  | Option.none => .error .keyError

/-- The encoded cell at a key (`encoded[key]`, `KeyError` when absent),
read back as the string it holds. -/
def requireEncoded (enc : List (String × PyStr)) (k : String) : Except Err String :=
  match alistGet? enc k with
  | some v => .ok v.render
  | Option.none => .error .keyError

/-- The parser a retrieval or parsed store uses: the named one when
supplied, else the collection's default parser. -/
def resolveParserName (e : RegEntry) (pn : Option String) : Except Err String :=
  match pn with
  | some p => .ok p
  | Option.none => default_parser_name e

/-- `DynamoWarehouse._s3_insert`: upload the file body under the derived S3
key (parsed bucket when a parser name is supplied, source bucket otherwise)
and return the key.  The metadata header attached to the upload is not
modelled (the index store is authoritative). -/
def _s3_insert (wh : Warehouse) (file : SFile) (parserName : Option String) :
    Except Err (Warehouse × String) := do
  let encoded ← _encode_metadata wh file.metadata
  let h ← requireEncoded encoded SRC_HASH
  let r ← requireEncoded encoded VERSION_FIELD
  let key ← _generate_s3_key wh h r parserName
  match parserName with
  | some _ => .ok ({ wh with s3Parsed := alistSet wh.s3Parsed key file.content }, key)
  | Option.none => .ok ({ wh with s3Source := alistSet wh.s3Source key file.content }, key)

/-- `DynamoWarehouse._s3_retrieve`: fetch the object under the derived key;
`None` (not an error) when no such object exists (`NoSuchKey`). -/
def _s3_retrieve (wh : Warehouse) (metadata : Metadata) (parserName : Option String) :
    Except Err (Option SFile) := do
  let h ← requireStr metadata SRC_HASH
  let r ← requireStr metadata VERSION_FIELD
  let key ← _generate_s3_key wh h r parserName
  let bucket := match parserName with
                | some _ => wh.s3Parsed
                | Option.none => wh.s3Source
  match alistGet? bucket key with
  | Option.none => .ok Option.none
  | some content =>
    match alistGet? metadata BYTES_FIELD with
    | Option.none => .error .keyError
    | some v => .ok (some ⟨content, decide (v = .bool true), metadata⟩)

/-- An item produced by `retrieve`/`retrieve_versions`: a metadata dict or
a file. -/
inductive RItem
  | meta (m : Metadata)
  | file (f : SFile)
  deriving DecidableEq, Repr

/-- The per-row body of the `retrieve_versions` generator: metadata when
`metadata_only`, else the (possibly absent) S3 object; parser validation is
performed lazily, per yielded parsed item. -/
def retrieveItemOfRow (wh : Warehouse) (row : DynamoRow)
    (metadata_only parsed_file : Bool) (parser_name : Option String) :
    Except Err (Option RItem) := do
  let m ← _decode_metadata wh (_sanitize_dynamo row.cells)
  if metadata_only then .ok (some (.meta m))
  else if parsed_file then do
    let e ← getSelectedEntry wh
    let parser ← resolveParserName e parser_name
    if (alistGet? e.parsers parser).isNone then .error .argumentError
    else do
      let f? ← _s3_retrieve wh m (some parser)
      .ok (f?.map .file)
  else do
    let f? ← _s3_retrieve wh m Option.none
    .ok (f?.map .file)

/-- `DynamoWarehouse.retrieve`.  With no `source_version`: the first item of
`retrieve_versions(latest_first=True)`, `None` when the query is empty
(`StopIteration`).  With a version: a direct `(file_key, version)` get that
raises `OperationError` when the source row does not exist; a missing S3
object still yields `None`. -/
def retrieve (wh : Warehouse) (primary_key : List PyValue) (source_version : Option String)
    (metadata_only parsed_file : Bool) (parser_name : Option String) :
    Except Err (Option RItem) := do
  match source_version with
  | Option.none => do
    let hash_key ← _generate_hash_key_vals wh primary_key
    -- latest_first=True, so query_order (ScanIndexForward) is false
    match evalFileQuery wh.sourceTable hash_key false with
    | [] => .ok Option.none
    | row :: _ => retrieveItemOfRow wh row metadata_only parsed_file parser_name
  | some version => do
    let hash_key ← _generate_hash_key_vals wh primary_key
    let m ← _get_source_table_item wh hash_key version
    if metadata_only then .ok (some (.meta m))
    else if parsed_file then do
      let e ← getSelectedEntry wh
      let parser ← resolveParserName e parser_name
      if (alistGet? e.parsers parser).isNone then .error .argumentError
      else do
        let f? ← _s3_retrieve wh m (some parser)
        .ok (f?.map .file)
    else do
      let f? ← _s3_retrieve wh m Option.none
      .ok (f?.map .file)

/-- The `store_source` closure inside `DynamoWarehouse.store`: derive the
keys into the file's metadata (the dict is mutated in place, so the updated
file is returned), compute md5 unless already computed, validate, upload,
record the S3 key, conditional-insert the row. -/
def storeSourceStep (wh : Warehouse) (file : SFile) (uid : String)
    (md5Hash : Option String) (pkeys : List PyValue) :
    Except Err (Warehouse × SFile × StoreResp) := do
  let h ← _generate_hash_key_meta wh file.metadata
  let md1 := alistSet file.metadata SRC_HASH (.str h)
  let rk ← _generate_range_key md1 uid
  let md2 := alistSet md1 VERSION_FIELD (.str rk)
  let md3 := alistSet md2 COLLECTION_ID (.str (_get_collection_id wh))
  let md4 := alistSet md3 BYTES_FIELD (.bool file.is_bytes)
  let md5val := match md5Hash with
                | some m => m
                | Option.none => get_md5 file
  let md5m := alistSet md4 MD5_FIELD (.str md5val)
  _validate_fields wh md5m false
  let file1 : SFile := ⟨file.content, file.is_bytes, md5m⟩
  let (wh1, s3key) ← _s3_insert wh file1 Option.none
  let md6 := alistSet md5m S3_KEY_FIELD (.str s3key)
  let wh2 ← _insert_source_table_item wh1 md6
  let version ← get_source_version md6
  .ok (wh2, ⟨file.content, file.is_bytes, md6⟩, ⟨pkeys, version, .SUCCESS, Option.none⟩)

/-- The `store_parsed` closure inside `DynamoWarehouse.store`: the metadata
must name an existing source version; the parser must be registered; fields
whose value differs from the source row are merged back into it. -/
def storeParsedStep (wh : Warehouse) (file : SFile) (parser_name : Option String)
    (pkeys : List PyValue) : Except Err (Warehouse × SFile × StoreResp) := do
  let file_id ← requireStr file.metadata SRC_HASH
  let file_version ← get_source_version file.metadata
  let e ← getSelectedEntry wh
  let parser ← resolveParserName e parser_name
  if (alistGet? e.parsers parser).isNone then .error .argumentError
  else do
    let source_metadata ← _get_source_table_item wh file_id file_version
    let update_map := file.metadata.filter (fun kv =>
      match alistGet? source_metadata kv.1 with
      | some v => ¬ pyEq kv.2 v
      | Option.none => ¬ pyEq kv.2 .none)
    _validate_fields wh file.metadata true
    let (wh1, _) ← _s3_insert wh file (some parser)
    let wh2 ← if update_map.isEmpty then Except.ok wh1
              else _update_source_table_item wh1 file_id file_version update_map
    .ok (wh2, file, ⟨pkeys, file_version, .SUCCESS, some parser⟩)

/-- `DynamoWarehouse.store`.  The duplicate-suppression decision logic for
source files: `force_store` skips every check; a supplied `compare_source`
callback decides against the latest retrieved file; otherwise the latest
stored metadata's md5 (and, when `last-modified` is required, that field)
decide. -/
def store (wh : Warehouse) (file : SFile) (parsed_file force_store : Bool)
    (compare_source : Option (SFile → SFile → Bool)) (parser_name : Option String)
    (uid : String) : Except Err (Warehouse × SFile × StoreResp) := do
  let pkeys ← get_primary_key wh file.metadata
  if parsed_file then storeParsedStep wh file parser_name pkeys
  else if force_store then storeSourceStep wh file uid Option.none pkeys
  else
    match compare_source with
    | some cmp => do
      let existing ← retrieve wh pkeys Option.none false false Option.none
      match existing with
      | some (.file ef) =>
        if cmp ef file then do
          let v ← get_source_version ef.metadata
          .ok (wh, file, ⟨pkeys, v, .ALREADY_EXIST, Option.none⟩)
        else storeSourceStep wh file uid Option.none pkeys
      | _ => storeSourceStep wh file uid Option.none pkeys
    | Option.none => do
      let stored ← retrieve wh pkeys Option.none true false Option.none
      match stored with
      | some (.meta sm) => do
        let e ← getSelectedEntry wh
        let md5h := get_md5 file
        let storeFlag ←
          match alistGet? sm MD5_FIELD with
          | Option.none => Except.error Err.keyError
          | some storedMd5 =>
            -- never store identical files
            if pyEq storedMd5 (.str md5h) then Except.ok false
            else if (requiredMetadataFieldsOf e).contains LAST_MODIFIED_FIELD then
              -- if "last-modified" is required but did not change, skip as well
              match alistGet? sm LAST_MODIFIED_FIELD, alistGet? file.metadata LAST_MODIFIED_FIELD with
              | some a, some b => Except.ok (!pyEq a b)
              | _, _ => Except.error Err.keyError
            else Except.ok true
        if storeFlag then storeSourceStep wh file uid (some md5h) pkeys
        else do
          let v ← get_source_version sm
          .ok (wh, file, ⟨pkeys, v, .ALREADY_EXIST, Option.none⟩)
      | _ => storeSourceStep wh file uid Option.none pkeys

/-- Python truthiness of an optional list argument (`None` and the empty
tuple are both falsy). -/
def listTruthy (o : Option (List String)) : Bool :=
  match o with
  | some l => !l.isEmpty
  | Option.none => false

/-- `DynamoWarehouse.update_source_registry`: create a collection (requiring
`primary_key_fields` and `metadata_type_map`), or update an existing one:
a truthy `primary_key_fields` differing from the stored tuple is rejected
with `ArgumentError`; a supplied `metadata_type_map` is merged in; a
supplied `required_metadata_fields` replaces the stored list wholesale; the
final type map must cover every primary-key and required-field name. -/
def update_source_registry (wh : Warehouse) (database collection : String)
    (primary_key_fields : Option (List String))
    (required_metadata_fields : Option (List String))
    (metadata_type_map : Option (List (String × PyType))) : Except Err Warehouse := do
  let fid := database ++ "_" ++ collection
  let entry ←
    match alistGet? wh.registry fid with
    | some e =>
      -- the collection already exists
      if listTruthy primary_key_fields ∧ primary_key_fields.getD [] ≠ e.primary_key_fields then
        Except.error Err.argumentError
      else
        match metadata_type_map with
        | some tm =>
          let merged := tm.foldl (fun acc kv => alistSet acc kv.1 kv.2) e.metadata_type_map
          Except.ok { e with metadata_type_map := merged }
        | Option.none => Except.ok e
    | Option.none =>
      -- registering a new collection
      match primary_key_fields, metadata_type_map with
      | some pkf, some tm => Except.ok ⟨fid, database, collection, pkf, [], tm, []⟩
      | _, _ => Except.error Err.argumentError
  let entry := match required_metadata_fields with
               | some r => { entry with required_metadata_fields := r }
               | Option.none => entry
  let missing := (entry.primary_key_fields ++ entry.required_metadata_fields).filter
      (fun k => !alistHas entry.metadata_type_map k)
  if !missing.isEmpty then .error .argumentError
  else .ok { wh with registry := alistSet wh.registry fid entry }

/-- `DataWarehouseInterface.INDEXES`. -/
inductive INDEXES
  | CONTENT
  | RELEASE
  deriving DecidableEq, Repr

/-- `inveniautils.datetime_range.DatetimeRange` (only the two bounds are
used by the embedded code; bounds are inclusive). -/
structure DatetimeRange where
  startDt : PyDatetime
  endDt : PyDatetime
  deriving DecidableEq, Repr

/-- A row of `DynamoWarehouse.INDEX_INFO`. -/
structure IndexInfo where
  name : String
  hashField : String
  rangeField : String
  endField : Option String
  deriving DecidableEq, Repr

/-- `DynamoWarehouse.INDEX_INFO`. -/
def INDEX_INFO : INDEXES → IndexInfo
  | .CONTENT => ⟨"ContentStartIndex", COLLECTION_ID, CONTENT_START_FIELD, some CONTENT_END_FIELD⟩
  | .RELEASE => ⟨"ReleaseDateIndex", COLLECTION_ID, RELEASE_FIELD, Option.none⟩

/-- The structured form of the key-condition expression built by
`_range_query_criteria`: always `hash = :hash`, optionally conjoined with
`range <= :max_range` (ContentStartIndex) or
`range BETWEEN :min_range AND :max_range` (ReleaseDateIndex). -/
inductive RangeCond
  | hashOnly
  | leMax (maxN : Int)
  | between (minN maxN : Int)
  deriving DecidableEq, Repr

/-- The structured form of the query criteria dict built by
`_range_query_criteria`.  `filterCond = some (f, minN)` stands for the
filter expression `f > :min_range OR attribute_not_exists(f)`. -/
structure QueryCriteria where
  indexName : String
  scanIndexForward : Bool
  hashField : String
  hashVal : String
  rangeField : String
  rangeCond : RangeCond
  filterCond : Option (String × Int)
  deriving DecidableEq, Repr

/-- `DynamoWarehouse._range_query_criteria`: pick `ReleaseDateIndex` when
neither a range nor an index is given, default to `ContentStartIndex`
otherwise; with a range, `content_start <= :max_range` plus the
content-end post-filter on the content index, and an inclusive `BETWEEN`
on the release index. -/
def _range_query_criteria (wh : Warehouse) (query_range : Option DatetimeRange)
    (index : Option INDEXES) (ascending : Bool) : QueryCriteria :=
  let idx := match query_range, index with
             | Option.none, Option.none => INDEXES.RELEASE
             | _, Option.none => INDEXES.CONTENT
             | _, some i => i
  let info := INDEX_INFO idx
  let hashVal := _get_collection_id wh
  match query_range with
  | Option.none =>
    ⟨info.name, ascending, info.hashField, hashVal, info.rangeField, .hashOnly, Option.none⟩
  | some qr =>
    let minRange := timestampFromDatetime qr.startDt
    let maxRange := timestampFromDatetime qr.endDt
    match idx with
    | .CONTENT =>
      ⟨info.name, ascending, info.hashField, hashVal, info.rangeField,
        .leMax maxRange, some (CONTENT_END_FIELD, minRange)⟩
    | .RELEASE =>
      ⟨info.name, ascending, info.hashField, hashVal, info.rangeField,
        .between minRange maxRange, Option.none⟩

/-- The integer value of a numeric row attribute. -/
def cellNum (r : DynamoRow) (f : String) : Option Int :=
  match alistGet? r.cells f with
  | some (.N v) =>
    match v.toIntE with
    | .ok n => some n
    | .error _ => Option.none
  | _ => Option.none

/-- DynamoDB key-condition semantics over a global secondary index: the hash
attribute must equal the queried value, and the item must carry the index's
(numeric) range attribute - the GSIs here are sparse - satisfying the range
condition when one is given. -/
def matchesKeyCondition (c : QueryCriteria) (r : DynamoRow) : Bool :=
  (cellString r c.hashField == some c.hashVal) &&
    match c.rangeCond, cellNum r c.rangeField with
    | .hashOnly, some _ => true
    | .leMax maxN, some n => decide (n ≤ maxN)
    | .between minN maxN, some n => decide (minN ≤ n) && decide (n ≤ maxN)
    | _, Option.none => false

/-- DynamoDB filter-expression semantics for
`f > :min_range OR attribute_not_exists(f)`: rows lacking the attribute
pass; rows holding a numeric value pass when it is strictly greater; a
type-mismatched comparison is false. -/
def matchesFilter (c : QueryCriteria) (r : DynamoRow) : Bool :=
  match c.filterCond with
  | Option.none => true
  | some (f, minN) =>
    match alistGet? r.cells f with
    | Option.none => true
    | some (.N v) =>
      match v.toIntE with
      | .ok n => decide (minN < n)
      | .error _ => false
    | some (.S _) => false

/-- The rows a DynamoDB query with the given criteria returns (the ordering
by index sort key is not modelled; no claim concerns this query's order). -/
def evalRangeQuery (table : List DynamoRow) (c : QueryCriteria) : List DynamoRow :=
  table.filter (fun r => matchesKeyCondition c r && matchesFilter c r)

/-- `DynamoWarehouse.query_metadata_items` (without projection): the rows of
the range query, lazily decoded. -/
def query_metadata_items (wh : Warehouse) (query_range : Option DatetimeRange)
    (index : Option INDEXES) (ascending : Bool) : Except Err (List Metadata) :=
  (evalRangeQuery wh.sourceTable (_range_query_criteria wh query_range index ascending)).mapM
    (fun r => _decode_metadata wh (_sanitize_dynamo r.cells))

/-! ## Helper lemmas about the container model -/

theorem alistGet?_cons {α : Type} (p : String × α) (t : List (String × α)) (k : String) :
    alistGet? (p :: t) k = if p.1 == k then some p.2 else alistGet? t k := by
  by_cases h : p.1 == k
  · simp [alistGet?, List.find?_cons_of_pos, h]
  · simp only [alistGet?]
    rw [List.find?_cons_of_neg]
    · simp [h]
    · simpa using h

theorem alistGet?_append_of_isSome {α : Type} (m m' : List (String × α)) (k : String)
    (h : (alistGet? m k).isSome) : alistGet? (m ++ m') k = alistGet? m k := by
  induction m with
  | nil => simp [alistGet?] at h
  | cons p t ih =>
    rw [List.cons_append, alistGet?_cons, alistGet?_cons]
    by_cases hp : p.1 == k
    · simp [hp]
    · rw [alistGet?_cons] at h
      simp only [hp, if_false] at h ⊢
      exact ih h

theorem alistGet?_append_of_none {α : Type} (m m' : List (String × α)) (k : String)
    (h : alistGet? m k = Option.none) : alistGet? (m ++ m') k = alistGet? m' k := by
  induction m with
  | nil => simp
  | cons p t ih =>
    rw [List.cons_append, alistGet?_cons]
    rw [alistGet?_cons] at h
    by_cases hp : p.1 == k
    · simp [hp] at h
    · simp only [hp, if_false] at h ⊢
      exact ih h

theorem alistGet?_singleton {α : Type} (k k' : String) (v : α) :
    alistGet? [(k, v)] k' = if k == k' then some v else Option.none := by
  rw [alistGet?_cons]
  rfl

theorem alistGet?_alistSet_self {α : Type} (m : List (String × α)) (k : String) (v : α) :
    alistGet? (alistSet m k v) k = some v := by
  induction m with
  | nil => simp [alistSet, alistGet?_singleton]
  | cons p t ih =>
    rw [alistSet]
    by_cases hp : p.1 == k
    · simp [hp, alistGet?_cons]
    · simp only [hp, Bool.false_eq_true, if_false]
      simp [alistGet?_cons, hp, ih]

theorem alistGet?_alistSet_ne {α : Type} (m : List (String × α)) (k k' : String) (v : α)
    (h : k' ≠ k) : alistGet? (alistSet m k v) k' = alistGet? m k' := by
  induction m with
  | nil =>
    simp only [alistSet, alistGet?_singleton, alistGet?]
    simp [beq_eq_false_iff_ne.mpr (fun hh => h hh.symm)]
  | cons p t ih =>
    rw [alistSet]
    by_cases hp : p.1 == k
    · have hpk : p.1 = k := by simpa using hp
      have hk' : (k == k') = false := beq_eq_false_iff_ne.mpr (fun hh => h hh.symm)
      have hpk' : (p.1 == k') = false := by rw [hpk]; exact hk'
      simp [hp, alistGet?_cons, hk', hpk']
    · simp only [hp, Bool.false_eq_true, if_false]
      rw [alistGet?_cons, alistGet?_cons]
      by_cases hq : p.1 == k'
      · simp [hq]
      · simp [hq, ih]

theorem alistGet?_map_value {α β : Type} (g : String → α → β) (l : List (String × α)) (k : String) :
    alistGet? (l.map (fun kv => (kv.1, g kv.1 kv.2))) k = (alistGet? l k).map (g k) := by
  induction l with
  | nil => simp [alistGet?]
  | cons p t ih =>
    rw [List.map_cons, alistGet?_cons, alistGet?_cons]
    by_cases hp : p.1 == k
    · have : p.1 = k := by simpa using hp
      subst this
      simp [hp]
    · simp [hp, ih]

/-! ## Helper lemmas about `_encode_metadata` and `_format_dynamo` -/

/-- Every successful `encodeFieldStep` either keeps the accumulator or
appends exactly one cell for the processed key. -/
theorem encodeFieldStep_shape (e : RegEntry) (rf : List String)
    (acc : List (String × PyStr)) (kv : String × PyValue) (acc' : List (String × PyStr))
    (h : encodeFieldStep e rf acc kv = .ok acc') :
    acc' = acc ∨ ∃ w, acc' = acc ++ [(kv.1, w)] := by
  rcases kv with ⟨k, v⟩
  simp only [encodeFieldStep] at h
  split at h
  · -- a declared type exists for the key
    split at h
    · split at h
      · exact Or.inr ⟨_, (Except.ok.inj h).symm⟩
      · exact absurd h (by simp)
    · split at h
      · split at h
        · exact Or.inr ⟨_, (Except.ok.inj h).symm⟩
        · exact absurd h (by simp)
      · exact Or.inr ⟨_, (Except.ok.inj h).symm⟩
  · -- no declared type: kept when a string, dropped otherwise
    split at h
    · exact Or.inr ⟨_, (Except.ok.inj h).symm⟩
    · exact Or.inl (Except.ok.inj h).symm

/-- A key already present in the accumulator keeps its value through the
rest of the encode fold. -/
theorem encodeFold_lookup_preserved (e : RegEntry) (rf : List String) (k : String) :
    ∀ (l : Metadata) (acc enc : List (String × PyStr)),
      l.foldlM (encodeFieldStep e rf) acc = .ok enc →
      (alistGet? acc k).isSome → alistGet? enc k = alistGet? acc k := by
  intro l
  induction l with
  | nil =>
    intro acc enc h hs
    simp only [List.foldlM_nil] at h
    exact congrArg (fun m => alistGet? m k) (Except.ok.inj h).symm
  | cons x t ih =>
    intro acc enc h hs
    rw [List.foldlM_cons] at h
    rcases hstep : encodeFieldStep e rf acc x with er | acc'
    · rw [hstep] at h
      exact absurd h (fun hh => Except.noConfusion hh)
    · rw [hstep] at h
      have h' : t.foldlM (encodeFieldStep e rf) acc' = .ok enc := h
      have hacc' : alistGet? acc' k = alistGet? acc k := by
        rcases encodeFieldStep_shape e rf acc x acc' hstep with hsh | ⟨w, hsh⟩
        · rw [hsh]
        · rw [hsh]
          exact alistGet?_append_of_isSome acc [(x.1, w)] k hs
      have := ih acc' enc h' (by rw [hacc']; exact hs)
      rw [this, hacc']

theorem alistGet?_append_singleton_isSome {α : Type} (acc : List (String × α)) (k : String) (w : α) :
    (alistGet? (acc ++ [(k, w)]) k).isSome := by
  rcases hacc : alistGet? acc k with - | v
  · rw [alistGet?_append_of_none acc [(k, w)] k hacc]
    simp [alistGet?_singleton]
  · rw [alistGet?_append_of_isSome acc [(k, w)] k (by rw [hacc]; rfl), hacc]
    rfl

theorem alistGet?_isSome_mem {α : Type} (m : List (String × α)) (k : String)
    (h : (alistGet? m k).isSome) : ∃ v, (k, v) ∈ m := by
  induction m with
  | nil => simp [alistGet?] at h
  | cons p t ih =>
    rw [alistGet?_cons] at h
    by_cases hp : p.1 == k
    · have : p.1 = k := by simpa using hp
      exact ⟨p.2, by rw [← this]; exact List.mem_cons_self p t⟩
    · simp only [hp, Bool.false_eq_true, if_false] at h
      rcases ih h with ⟨v, hv⟩
      exact ⟨v, List.mem_cons_of_mem p hv⟩

/-- For a key with a declared type, every successful `encodeFieldStep` on
that key appends a cell (typed fields are never dropped). -/
theorem encodeFieldStep_typed_appends (e : RegEntry) (rf : List String)
    (acc : List (String × PyStr)) (k : String) (v : PyValue) (acc' : List (String × PyStr))
    (ht : (_typeOf e k).isSome)
    (h : encodeFieldStep e rf acc (k, v) = .ok acc') :
    ∃ w, acc' = acc ++ [(k, w)] := by
  simp only [encodeFieldStep] at h
  split at h
  · -- a declared type exists: every successful branch appends
    split at h
    · split at h
      · exact ⟨_, (Except.ok.inj h).symm⟩
      · exact absurd h (fun hh => Except.noConfusion hh)
    · split at h
      · split at h
        · exact ⟨_, (Except.ok.inj h).symm⟩
        · exact absurd h (fun hh => Except.noConfusion hh)
      · exact ⟨_, (Except.ok.inj h).symm⟩
  · -- no declared type: contradicts `ht`
    rename_i heq
    rw [heq] at ht
    exact absurd ht (by simp)

/-- A field with a declared type survives a successful metadata encoding. -/
theorem encodeFold_typed_kept (e : RegEntry) (rf : List String) (k : String)
    (ht : (_typeOf e k).isSome) :
    ∀ (l : Metadata) (acc enc : List (String × PyStr)),
      l.foldlM (encodeFieldStep e rf) acc = .ok enc →
      (alistGet? l k).isSome → (alistGet? enc k).isSome := by
  intro l
  induction l with
  | nil =>
    intro acc enc h hl
    simp [alistGet?] at hl
  | cons x t ih =>
    intro acc enc h hl
    rw [List.foldlM_cons] at h
    rcases hstep : encodeFieldStep e rf acc x with er | acc'
    · rw [hstep] at h
      exact absurd h (fun hh => Except.noConfusion hh)
    · rw [hstep] at h
      have h' : t.foldlM (encodeFieldStep e rf) acc' = .ok enc := h
      rw [alistGet?_cons] at hl
      by_cases hx : x.1 == k
      · have hxk : x.1 = k := by simpa using hx
        rcases x with ⟨xk, xv⟩
        simp only at hxk
        subst hxk
        rcases encodeFieldStep_typed_appends e rf acc xk xv acc' ht hstep with ⟨w, hw⟩
        have hsome : (alistGet? acc' xk).isSome := by
          rw [hw]; exact alistGet?_append_singleton_isSome acc xk w
        rw [encodeFold_lookup_preserved e rf xk t acc' enc h' hsome]
        exact hsome
      · simp only [hx, Bool.false_eq_true, if_false] at hl
        exact ih acc' enc h' hl

/-- A string-valued field of a successfully encoded metadata dict appears in
the encoding verbatim (as the literal string). -/
theorem encodeFold_str_field (e : RegEntry) (rf : List String) (k s : String) :
    ∀ (l : Metadata) (acc enc : List (String × PyStr)),
      l.foldlM (encodeFieldStep e rf) acc = .ok enc →
      alistGet? acc k = Option.none →
      alistGet? l k = some (.str s) →
      alistGet? enc k = some (.lit s) := by
  intro l
  induction l with
  | nil =>
    intro acc enc h hacc hl
    simp [alistGet?] at hl
  | cons x t ih =>
    intro acc enc h hacc hl
    rw [List.foldlM_cons] at h
    rcases hstep : encodeFieldStep e rf acc x with er | acc'
    · rw [hstep] at h
      exact absurd h (fun hh => Except.noConfusion hh)
    · rw [hstep] at h
      have h' : t.foldlM (encodeFieldStep e rf) acc' = .ok enc := h
      rw [alistGet?_cons] at hl
      by_cases hx : x.1 == k
      · have hxk : x.1 = k := by simpa using hx
        simp only [hx, if_true] at hl
        have hx2 : x.2 = .str s := Option.some.inj hl
        rcases x with ⟨xk, xv⟩
        simp only at hxk hx2
        subst hxk
        subst hx2
        -- the step appended (k, .lit s)
        have hstep' : acc' = acc ++ [(xk, PyStr.lit s)] := by
          simp only [encodeFieldStep, get_type, PyValue.pyType, typesOfPyType, TYPES.value] at hstep
          split at hstep
          · -- a declared type exists for the key
            split at hstep
            · -- declared type differs from str: a string value is never None
              rw [if_neg (by simp)] at hstep
              exact absurd hstep (fun hh => Except.noConfusion hh)
            · split at hstep
              · -- declared datetime branch: a plain string value raises
                exact absurd hstep (fun hh => Except.noConfusion hh)
              · simpa [encode] using (Except.ok.inj hstep).symm
          · -- untyped: the value is a string, so it is kept verbatim
            rw [if_pos trivial] at hstep
            simpa [encode] using (Except.ok.inj hstep).symm
        have hsome : alistGet? acc' xk = some (PyStr.lit s) := by
          rw [hstep', alistGet?_append_of_none acc [(xk, PyStr.lit s)] xk hacc]
          simp [alistGet?_singleton]
        rw [encodeFold_lookup_preserved e rf xk t acc' enc h' (by rw [hsome]; rfl)]
        exact hsome
      · simp only [hx, Bool.false_eq_true, if_false] at hl
        have hacc' : alistGet? acc' k = Option.none := by
          rcases encodeFieldStep_shape e rf acc x acc' hstep with hsh | ⟨w, hsh⟩
          · rw [hsh]; exact hacc
          · rw [hsh, alistGet?_append_of_none acc [(x.1, w)] k hacc, alistGet?_singleton]
            simp [hx]
        exact ih acc' enc h' hacc' hl

/-- `_format_dynamo` transforms values pointwise and keeps keys. -/
theorem alistGet?_format (e : RegEntry) (enc : List (String × PyStr)) (k : String) :
    alistGet? (_format_dynamo e enc) k =
      (alistGet? enc k).map (fun w =>
        if _typeOf e k = some .datetimeT ∨ _typeOf e k = some .intT then DCell.N w
        else DCell.S w) := by
  simpa [_format_dynamo] using
    alistGet?_map_value
      (fun key w =>
        if _typeOf e key = some .datetimeT ∨ _typeOf e key = some .intT then DCell.N w
        else DCell.S w)
      enc k

/-- Whatever cell type `_format_dynamo` picks, the stored string renders the
encoded value. -/
theorem cellString_format (e : RegEntry) (enc : List (String × PyStr)) (k : String) (w : PyStr)
    (h : alistGet? enc k = some w) :
    cellString ⟨_format_dynamo e enc⟩ k = some w.render := by
  simp only [cellString, alistGet?_format, h, Option.map_some']
  by_cases hc : _typeOf e k = some PyType.datetimeT ∨ _typeOf e k = some PyType.intT
  · rw [if_pos hc]
  · rw [if_neg hc]

/-! ## Reduction lemmas for `Except` binds -/

theorem exceptBind_ok {ε α β : Type} (a : α) (f : α → Except ε β) :
    (Except.ok a >>= f) = f a := rfl

theorem exceptBind_error {ε α β : Type} (e : ε) (f : α → Except ε β) :
    ((Except.error e : Except ε α) >>= f) = Except.error e := rfl

/-! ## Concrete fixtures (a one-collection warehouse) -/

/-- A collection type map declaring one int-typed primary-key field. -/
def tmC : List (String × PyType) := [("k1", .intT)]

/-- A registered collection `db/coll` with primary key `k1 : int`. -/
def entryC : RegEntry := ⟨"db_coll", "db", "coll", ["k1"], [], tmC, []⟩

/-- A parser for the fixture collection, marked default. -/
def parserC : ParserInfo := ⟨["k1"], tmC, .tzTimezone 0, true⟩

/-- The fixture collection with parser `p1` registered. -/
def entryP : RegEntry := ⟨"db_coll", "db", "coll", ["k1"], [], tmC, [("p1", parserC)]⟩

/-- An empty warehouse holding the fixture collection. -/
def whC : Warehouse := ⟨"db", "coll", [("db_coll", entryC)], [], [], [], Option.none⟩

/-- A retrieval instant (epoch second 600, UTC offset zero). -/
def dtC : PyDatetime := .aware 600000000 (.tzTimezone 0)

/-- A complete source-file metadata dict for the fixture collection. -/
def metaC : Metadata :=
  [("k1", .int 5), (RETRIEVED_FIELD, .datetime dtC), (RELEASE_FIELD, .datetime dtC),
   (COLLECTION_ID, .str "db_coll"), (MD5_FIELD, .str "m0"), (BYTES_FIELD, .bool true)]

/-- The source-table row `_insert_source_table_item` derives from `metaC`. -/
def rowC5 : DynamoRow :=
  ⟨[("k1", .N (.ofInt 5)), (RETRIEVED_FIELD, .N (.ofInt 600)), (RELEASE_FIELD, .N (.ofInt 600)),
    (COLLECTION_ID, .S (.lit "db_coll")), (MD5_FIELD, .S (.lit "m0")),
    (BYTES_FIELD, .S (.ofInt 1))]⟩

/-- The fixture warehouse after inserting `metaC`. -/
def whC5 : Warehouse := { whC with sourceTable := [rowC5] }

/-! ## Claim C5 -/

/-- Claim C5, counterexample: the claim says an index-store cell is numeric
exactly when the field's declared type is datetime; but inserting a row into
the fixture collection writes the int-typed field `k1` as a numeric cell
although its declared type is `int`, not `datetime`. -/
theorem insert_int_cell_numeric_counterexample :
    _insert_source_table_item whC metaC = .ok whC5
      ∧ alistGet? rowC5.cells "k1" = some (DCell.N (.ofInt 5))
      ∧ _typeOf entryC "k1" = some PyType.intT
      ∧ some PyType.intT ≠ some PyType.datetimeT :=
  ⟨rfl, rfl, rfl, by decide⟩

/-- Claim C5 (amended): every cell of a row written to the index store by
`_insert_source_table_item` is numeric exactly when the field's declared
type is `datetime` or `int`; every value of any other type appears as a
string cell. -/
theorem index_cells_numeric_iff_datetime_or_int
    (wh wh' : Warehouse) (e : RegEntry) (metadata : Metadata)
    (hreg : getSelectedEntry wh = .ok e)
    (h : _insert_source_table_item wh metadata = .ok wh') :
    ∀ row ∈ wh'.sourceTable, row ∈ wh.sourceTable ∨
      ∀ kv ∈ row.cells,
        ((∃ v, kv.2 = DCell.N v) ↔
          (_typeOf e kv.1 = some .datetimeT ∨ _typeOf e kv.1 = some .intT)) := by
  simp only [_insert_source_table_item] at h
  rcases hv : _validate_fields wh metadata false with er | u
  · rw [hv, exceptBind_error] at h
    exact absurd h (fun hh => Except.noConfusion hh)
  · rw [hv, exceptBind_ok, hreg, exceptBind_ok] at h
    rcases henc : _encode_metadata wh metadata with er | enc
    · rw [henc, exceptBind_error] at h
      exact absurd h (fun hh => Except.noConfusion hh)
    · rw [henc, exceptBind_ok] at h
      simp only [putItemNew] at h
      split at h
      · rw [exceptBind_error] at h
        exact absurd h (fun hh => Except.noConfusion hh)
      · rw [exceptBind_ok] at h
        have hw : wh' = { wh with sourceTable := wh.sourceTable ++ [⟨_format_dynamo e enc⟩] } :=
          (Except.ok.inj h).symm
        intro row hrow
        rw [hw] at hrow
        simp only [List.mem_append, List.mem_singleton] at hrow
        rcases hrow with hold | hnew
        · exact Or.inl hold
        · refine Or.inr (fun kv hkv => ?_)
          rw [hnew] at hkv
          simp only [_format_dynamo, List.mem_map] at hkv
          rcases hkv with ⟨orig, _, horig⟩
          by_cases hc : _typeOf e orig.1 = some PyType.datetimeT ∨ _typeOf e orig.1 = some PyType.intT
          · rw [if_pos hc] at horig
            rw [← horig]
            simpa using hc
          · rw [if_neg hc] at horig
            rw [← horig]
            simpa using hc

/-- Witness for the amended claim C5 at a concrete input: the `k1` cell of
the inserted fixture row. -/
theorem index_cells_numeric_witness :
    (∃ v, (DCell.N (PyStr.ofInt 5)) = DCell.N v) ↔
      (_typeOf entryC "k1" = some .datetimeT ∨ _typeOf entryC "k1" = some .intT) :=
  ((index_cells_numeric_iff_datetime_or_int whC whC5 entryC metaC rfl rfl rowC5
      (by simp [whC5])).resolve_left (by simp [whC]))
    ("k1", DCell.N (.ofInt 5)) (by simp [rowC5])

/-! ## Claim C6 -/

/-- Claim C6, counterexample: the claim says `update_source_registry` raises
`ArgumentError` whenever the supplied `primary_key_fields` differ from the
collection's existing tuple; but a supplied empty tuple is falsy in the
`if primary_key_fields and ...` guard, so the call succeeds (leaving the
entry unchanged) although `()` differs from the stored `("k1",)`. -/
theorem update_registry_empty_pkf_accepted :
    update_source_registry whC "db" "coll" (some []) Option.none Option.none = .ok whC
      ∧ ([] : List String) ≠ entryC.primary_key_fields :=
  ⟨rfl, by decide⟩

/-- Claim C6 (amended): for an existing collection,
`update_source_registry` raises `ArgumentError` whenever the supplied
`primary_key_fields` is non-empty and differs from the collection's
existing tuple; the registry is returned unchanged (the error carries no
new state). -/
theorem update_registry_rejects_primary_key_change
    (wh : Warehouse) (db coll : String) (e : RegEntry) (pkf : List String)
    (rmf : Option (List String)) (tm : Option (List (String × PyType)))
    (hreg : alistGet? wh.registry (db ++ "_" ++ coll) = some e)
    (hne : pkf ≠ []) (hdiff : pkf ≠ e.primary_key_fields) :
    update_source_registry wh db coll (some pkf) rmf tm = .error .argumentError := by
  have ht : listTruthy (some pkf) = true := by
    cases pkf with
    | nil => exact absurd rfl hne
    | cons a l => simp [listTruthy]
  simp only [update_source_registry, hreg]
  rw [if_pos ⟨ht, by simpa using hdiff⟩]
  rfl

/-- Witness for the amended claim C6 at a concrete input. -/
theorem update_registry_rejects_witness :
    update_source_registry whC "db" "coll" (some ["zz"]) Option.none Option.none
      = .error .argumentError :=
  update_registry_rejects_primary_key_change whC "db" "coll" entryC ["zz"]
    Option.none Option.none rfl (by decide) (by decide)

/-! ## Claim C10 -/

/-- Claim C10: `get_primary_key` raises `MetadataError` whenever a
primary-key value's exact runtime type differs from the declared type, even
for subclass instances, while `_validate_primary_keys` accepts subclass
instances via `isinstance`; in particular a `bool` value is an instance of
`int` but its exact type is not `int`. -/
theorem primary_key_exact_type_vs_isinstance
    (wh : Warehouse) (e : RegEntry) (k : String) (t : PyType) (b : Bool)
    (hreg : getSelectedEntry wh = .ok e)
    (hpk : e.primary_key_fields = [k])
    (ht : alistGet? e.metadata_type_map k = some t) :
    (∀ v : PyValue, v.pyType ≠ t → get_primary_key wh [(k, v)] = .error .metadataError)
    ∧ (∀ v : PyValue, pyIsInstance v t = true → _validate_primary_keys wh [v] = .ok ())
    ∧ (pyIsInstance (.bool b) .intT = true ∧ (PyValue.bool b).pyType ≠ .intT) := by
  have h3 : pyIsInstance (.bool b) .intT = true := by cases b <;> rfl
  have h4 : (PyValue.bool b).pyType ≠ .intT := by cases b <;> decide
  refine ⟨?_, ?_, h3, h4⟩
  · intro v hv
    simp only [get_primary_key, hreg, exceptBind_ok, hpk, List.foldlM_cons, List.foldlM_nil]
    rw [show alistGet? [(k, v)] k = some v by simp [alistGet?_singleton], ht]
    simp [hv]
  · intro v hv
    simp only [_validate_primary_keys, hreg, exceptBind_ok, hpk]
    rw [if_neg (by simp)]
    simp only [List.zip_cons_cons, List.zip_nil_right, anyInvalidKey, ht, hv]
    rfl

/-- Witness for claim C10 at a concrete input: a `bool` primary-key value is
rejected by `get_primary_key` but accepted by `_validate_primary_keys` for
the int-typed key field of the fixture collection. -/
theorem primary_key_exact_type_witness :
    get_primary_key whC [("k1", .bool true)] = .error .metadataError
      ∧ _validate_primary_keys whC [.bool true] = .ok () := by
  have h := primary_key_exact_type_vs_isinstance whC entryC "k1" .intT true rfl rfl rfl
  exact ⟨h.1 (.bool true) (by decide), h.2.1 (.bool true) (by decide)⟩

/-! ## Claim C4 -/

theorem matchesKeyCondition_leMax_iff (idx : String) (asc : Bool) (hf hv rf : String)
    (maxN : Int) (fc : Option (String × Int)) (r : DynamoRow) :
    matchesKeyCondition ⟨idx, asc, hf, hv, rf, .leMax maxN, fc⟩ r = true
      ↔ cellString r hf = some hv ∧ ∃ s, cellNum r rf = some s ∧ s ≤ maxN := by
  simp only [matchesKeyCondition, Bool.and_eq_true, beq_iff_eq]
  constructor
  · rintro ⟨h1, h2⟩
    refine ⟨h1, ?_⟩
    rcases hcs : cellNum r rf with - | s
    · rw [hcs] at h2
      simp at h2
    · rw [hcs] at h2
      simp only [decide_eq_true_eq] at h2
      exact ⟨s, rfl, h2⟩
  · rintro ⟨h1, s, hs, hle⟩
    refine ⟨h1, ?_⟩
    rw [hs]
    simpa using hle

theorem matchesFilter_some_iff (idx : String) (asc : Bool) (hf hv rf : String)
    (rc : RangeCond) (f : String) (minN : Int) (r : DynamoRow) :
    matchesFilter ⟨idx, asc, hf, hv, rf, rc, some (f, minN)⟩ r = true
      ↔ alistGet? r.cells f = Option.none
        ∨ ∃ en, cellNum r f = some en ∧ minN < en := by
  simp only [matchesFilter, cellNum]
  cases hget : alistGet? r.cells f with
  | none => simp
  | some cell =>
    cases cell with
    | S v => simp
    | N v =>
      cases hep : v.toIntE with
      | error er => simp [hep]
      | ok n => simp [hep]

/-- Claim C4: a row is returned by the `ContentStartIndex` range query built
by `_range_query_criteria` if and only if it belongs to the collection
(`feed_id` matches), its `content_start` is at most the range's end, and its
`content_end` is absent or strictly greater than the range's start; hence
every returned row satisfies the bounds and every omitted row of the
collection violates one of them. -/
theorem content_index_range_query_soundness
    (wh : Warehouse) (qr : DatetimeRange) (asc : Bool) (r : DynamoRow) :
    r ∈ evalRangeQuery wh.sourceTable (_range_query_criteria wh (some qr) (some .CONTENT) asc)
      ↔ r ∈ wh.sourceTable
        ∧ cellString r COLLECTION_ID = some (_get_collection_id wh)
        ∧ (∃ s, cellNum r CONTENT_START_FIELD = some s
            ∧ s ≤ timestampFromDatetime qr.endDt)
        ∧ (alistGet? r.cells CONTENT_END_FIELD = Option.none
            ∨ ∃ en, cellNum r CONTENT_END_FIELD = some en
                ∧ timestampFromDatetime qr.startDt < en) := by
  have hc : _range_query_criteria wh (some qr) (some .CONTENT) asc =
      ⟨"ContentStartIndex", asc, COLLECTION_ID, _get_collection_id wh, CONTENT_START_FIELD,
        .leMax (timestampFromDatetime qr.endDt),
        some (CONTENT_END_FIELD, timestampFromDatetime qr.startDt)⟩ := rfl
  rw [hc]
  simp only [evalRangeQuery, List.mem_filter, Bool.and_eq_true,
    matchesKeyCondition_leMax_iff, matchesFilter_some_iff]
  tauto

/-! ## Claim C7 -/

/-- Claim C7: `update_metadata_item` raises `ArgumentError` on an empty
update map; raises when any updated field is a primary-key field or
`retrieved_date` (a `MetadataError`, or an encoding error raised even
earlier); and raises when no row with the given `(file_key, source_version)`
exists.  In the functional model the error paths return no new state, so
the stored row is unchanged in each failure case. -/
theorem update_metadata_restrictions
    (wh : Warehouse) (e : RegEntry) (pk : List PyValue) (version hk : String)
    (hreg : getSelectedEntry wh = .ok e)
    (hgen : _generate_hash_key_vals wh pk = .ok hk) :
    (update_metadata_item wh pk version [] = .error .argumentError)
    ∧ (∀ (um : Metadata) (k : String),
        (alistGet? um k).isSome →
        (k ∈ e.primary_key_fields ∨ k = RETRIEVED_FIELD) →
        (_typeOf e k).isSome →
        ∃ er, update_metadata_item wh pk version um = .error er)
    ∧ (∀ um : Metadata,
        (∀ row ∈ wh.sourceTable, rowKey row ≠ (some hk, some version)) →
        ∃ er, update_metadata_item wh pk version um = .error er) := by
  refine ⟨?_, ?_, ?_⟩
  · simp only [update_metadata_item, hgen, exceptBind_ok]
    rfl
  · intro um k hum hko hty
    have hne : um.isEmpty = false := by
      cases um with
      | nil => simp [alistGet?] at hum
      | cons x t => rfl
    simp only [update_metadata_item, hgen, exceptBind_ok, _update_source_table_item, hne,
      Bool.false_eq_true, if_false, hreg, exceptBind_ok]
    rcases henc : _encode_metadata wh um with er | enc
    · exact ⟨er, rfl⟩
    · simp only [exceptBind_ok]
      have hfold : um.foldlM
          (encodeFieldStep e ([RETRIEVED_FIELD, RELEASE_FIELD] ++ requiredMetadataFieldsOf e)) []
            = .ok enc := by
        simpa only [_encode_metadata, hreg, exceptBind_ok] using henc
      have hkept : (alistGet? enc k).isSome :=
        encodeFold_typed_kept e _ k hty um [] enc hfold hum
      have hfmt : (alistGet? (_format_dynamo e enc) k).isSome := by
        rw [alistGet?_format]
        rcases Option.isSome_iff_exists.mp hkept with ⟨w, hw⟩
        rw [hw]
        rfl
      rcases alistGet?_isSome_mem _ k hfmt with ⟨v, hv⟩
      have hill : (e.primary_key_fields ++ [RETRIEVED_FIELD]).contains k = true := by
        rcases hko with hko | hko
        · simp [hko]
        · simp [hko]
      have hany : (_format_dynamo e enc).any
          (fun kv => (e.primary_key_fields ++ [RETRIEVED_FIELD]).contains kv.1) = true :=
        List.any_eq_true.mpr ⟨(k, v), hv, hill⟩
      rw [if_pos hany]
      exact ⟨.metadataError, rfl⟩
  · intro um hnorow
    rcases hne : um.isEmpty with - | -
    · simp only [update_metadata_item, hgen, exceptBind_ok, _update_source_table_item, hne,
        Bool.false_eq_true, if_false, hreg, exceptBind_ok]
      rcases henc : _encode_metadata wh um with er | enc
      · exact ⟨er, rfl⟩
      · simp only [exceptBind_ok]
        rcases hany : (_format_dynamo e enc).any
            (fun kv => (e.primary_key_fields ++ [RETRIEVED_FIELD]).contains kv.1) with - | -
        · rw [if_neg (by simp [hany])]
          rcases hfe : (_format_dynamo e enc).isEmpty with - | -
          · rw [if_neg (by simp [hfe])]
            have hnone : (wh.sourceTable.any
                (fun r => decide (rowKey r = (some hk, some version)))) = false := by
              rw [List.any_eq_false]
              intro r hr
              simpa using hnorow r hr
            rw [if_neg (by simp [hnone])]
            exact ⟨.operationError, rfl⟩
          · rw [if_pos (by simp [hfe])]
            exact ⟨.indexError, rfl⟩
        · rw [if_pos (by simp [hany])]
          exact ⟨.metadataError, rfl⟩
    · simp only [update_metadata_item, hgen, exceptBind_ok, _update_source_table_item, hne]
      exact ⟨.argumentError, rfl⟩

/-- Witness for claim C7 at concrete inputs: the empty map, a map touching
the primary-key field `k1`, and a valid map against a missing row. -/
theorem update_metadata_restrictions_witness :
    (update_metadata_item whC [.int 5] "600_u1" [] = .error .argumentError)
    ∧ (∃ er, update_metadata_item whC [.int 5] "600_u1" [("k1", .int 7)] = .error er)
    ∧ (∃ er, update_metadata_item whC [.int 5] "600_u1" [("md5", .str "z")] = .error er) := by
  have h := update_metadata_restrictions whC entryC [.int 5] "600_u1" "db/coll/sha256.5" rfl rfl
  exact ⟨h.1,
    h.2.1 [("k1", .int 7)] "k1" (by simp [alistGet?_singleton]) (Or.inl (by simp [entryC]))
      (by decide),
    h.2.2 [("md5", .str "z")] (by simp [whC])⟩

/-! ## Claim C8 -/

/-- The decoded metadata of the fixture row `rowC8` under `entryP`. -/
def rowC8 : DynamoRow :=
  ⟨[(SRC_HASH, .S (.lit "db/coll/sha256.5")), (VERSION_FIELD, .S (.lit "600_u1")),
    ("k1", .N (.ofInt 5)), (RETRIEVED_FIELD, .N (.ofInt 600)), (RELEASE_FIELD, .N (.ofInt 600)),
    (COLLECTION_ID, .S (.lit "db_coll")), (MD5_FIELD, .S (.lit "m0")),
    (BYTES_FIELD, .S (.ofInt 1)), (S3_KEY_FIELD, .S (.lit "db/coll/600_u1_sha256.5"))]⟩

/-- A warehouse holding the fixture collection with parser `p1`, one stored
source row, and an empty parsed bucket. -/
def whP : Warehouse := ⟨"db", "coll", [("db_coll", entryP)], [rowC8], [], [], Option.none⟩

/-- `rowC8` decoded (datetimes re-localised into parser `p1`'s timezone). -/
def mC8 : Metadata :=
  [(SRC_HASH, .str "db/coll/sha256.5"), (VERSION_FIELD, .str "600_u1"),
   ("k1", .int 5), (RETRIEVED_FIELD, .datetime (.aware 600000000 (.tzTimezone 0))),
   (RELEASE_FIELD, .datetime (.aware 600000000 (.tzTimezone 0))),
   (COLLECTION_ID, .str "db_coll"), (MD5_FIELD, .str "m0"),
   (BYTES_FIELD, .bool true), (S3_KEY_FIELD, .str "db/coll/600_u1_sha256.5")]

/-- Claim C8: `retrieve` with an explicit `source_version` and
`parsed_file=true` returns `None` (no result, not an error) when the source
row exists but no parsed object exists for the requested parser, whereas
`retrieve` for a version whose source row does not exist raises
`OperationError`. -/
theorem retrieve_missing_parsed_vs_missing_source
    (wh whM : Warehouse) (e : RegEntry) (pk pkM : List PyValue)
    (version versionM hk hkM mh mv skey parser : String) (m : Metadata)
    (mo pf : Bool) (pn : Option String)
    (hreg : getSelectedEntry wh = .ok e)
    (hgen : _generate_hash_key_vals wh pk = .ok hk)
    (hget : _get_source_table_item wh hk version = .ok m)
    (hparser : (alistGet? e.parsers parser).isSome)
    (hmh : alistGet? m SRC_HASH = some (.str mh))
    (hmv : alistGet? m VERSION_FIELD = some (.str mv))
    (hkey : _generate_s3_key wh mh mv (some parser) = .ok skey)
    (habsent : alistGet? wh.s3Parsed skey = Option.none)
    (hgenM : _generate_hash_key_vals whM pkM = .ok hkM)
    (hmiss : ∀ row ∈ whM.sourceTable, rowKey row ≠ (some hkM, some versionM)) :
    retrieve wh pk (some version) false true (some parser) = .ok Option.none
    ∧ retrieve whM pkM (some versionM) mo pf pn = .error .operationError := by
  constructor
  · simp only [retrieve, hgen, exceptBind_ok, hget, Bool.false_eq_true, if_false,
      if_true, hreg, resolveParserName]
    rcases Option.isSome_iff_exists.mp hparser with ⟨info, hinfo⟩
    rw [if_neg (by simp [hinfo])]
    simp only [_s3_retrieve, requireStr, hmh, hmv, exceptBind_ok, hkey, habsent]
    rfl
  · have hfind : whM.sourceTable.find?
        (fun r => decide (rowKey r = (some hkM, some versionM))) = Option.none := by
      rw [List.find?_eq_none]
      intro r hr
      simpa using hmiss r hr
    simp only [retrieve, hgenM, exceptBind_ok, _get_source_table_item, hfind]
    rfl

/-- Witness for claim C8 at concrete inputs: the stored fixture row with no
parsed object yields `None`; an empty warehouse raises `OperationError`. -/
theorem retrieve_missing_witness :
    retrieve whP [.int 5] (some "600_u1") false true (some "p1") = .ok Option.none
    ∧ retrieve whC [.int 5] (some "600_u1") false false Option.none
        = .error .operationError :=
  retrieve_missing_parsed_vs_missing_source whP whC entryP [.int 5] [.int 5]
    "600_u1" "600_u1" "db/coll/sha256.5" "db/coll/sha256.5" "db/coll/sha256.5" "600_u1"
    "db/coll/p1/600_u1_sha256.5" "p1" mC8 false false Option.none
    rfl rfl rfl rfl rfl rfl rfl rfl rfl (by simp [whC])

/-! ## Claim C3 -/

/-- Inversion of `_generate_range_key`: a successful range key is the
epoch-second prefix of the metadata's `retrieved_date` joined to the uid. -/
theorem generate_range_key_inversion (m : Metadata) (uid rk : String)
    (h : _generate_range_key m uid = .ok rk) :
    ∃ d, alistGet? m RETRIEVED_FIELD = some (.datetime d)
      ∧ rk = toString (timestampFromDatetime d) ++ "_" ++ uid := by
  simp only [_generate_range_key] at h
  rcases hget : alistGet? m RETRIEVED_FIELD with - | v
  · rw [hget] at h
    exact absurd h (fun hh => Except.noConfusion hh)
  · rw [hget] at h
    cases v with
    | datetime d => exact ⟨d, rfl, (Except.ok.inj h).symm⟩
    | none => exact absurd h (fun hh => Except.noConfusion hh)
    | str s => exact absurd h (fun hh => Except.noConfusion hh)
    | int i => exact absurd h (fun hh => Except.noConfusion hh)
    | bool b => exact absurd h (fun hh => Except.noConfusion hh)
    | float q => exact absurd h (fun hh => Except.noConfusion hh)
    | decimal q => exact absurd h (fun hh => Except.noConfusion hh)
    | timedelta t => exact absurd h (fun hh => Except.noConfusion hh)
    | tz t => exact absurd h (fun hh => Except.noConfusion hh)

/-- `_s3_insert` never touches the source table. -/
theorem s3_insert_preserves_sourceTable (wh : Warehouse) (f : SFile) (pn : Option String)
    (wh1 : Warehouse) (key : String)
    (h : _s3_insert wh f pn = .ok (wh1, key)) : wh1.sourceTable = wh.sourceTable := by
  simp only [_s3_insert] at h
  rcases henc : _encode_metadata wh f.metadata with er | enc
  · rw [henc] at h
    exact absurd h (fun hh => Except.noConfusion hh)
  · rw [henc] at h
    simp only [exceptBind_ok] at h
    rcases hh : requireEncoded enc SRC_HASH with er | hs
    · rw [hh] at h
      exact absurd h (fun hhh => Except.noConfusion hhh)
    · rw [hh] at h
      simp only [exceptBind_ok] at h
      rcases hr : requireEncoded enc VERSION_FIELD with er | rs
      · rw [hr] at h
        exact absurd h (fun hhh => Except.noConfusion hhh)
      · rw [hr] at h
        simp only [exceptBind_ok] at h
        rcases hk : _generate_s3_key wh hs rs pn with er | k
        · rw [hk] at h
          exact absurd h (fun hhh => Except.noConfusion hhh)
        · rw [hk] at h
          simp only [exceptBind_ok] at h
          cases pn with
          | none =>
            have h1 : ({ wh with s3Source := alistSet wh.s3Source k f.content } : Warehouse)
                = wh1 := congrArg Prod.fst (Except.ok.inj h)
            rw [← h1]
          | some p =>
            have h1 : ({ wh with s3Parsed := alistSet wh.s3Parsed k f.content } : Warehouse)
                = wh1 := congrArg Prod.fst (Except.ok.inj h)
            rw [← h1]

/-- Inversion of `_insert_source_table_item`: on success exactly one row is
appended, its key pair was previously absent, and its `source_version` cell
renders the metadata's version string. -/
theorem insert_source_item_inversion (wh : Warehouse) (md : Metadata) (wh2 : Warehouse)
    (h : _insert_source_table_item wh md = .ok wh2) :
    ∃ row, wh2.sourceTable = wh.sourceTable ++ [row]
      ∧ (∀ r ∈ wh.sourceTable, rowKey r ≠ rowKey row)
      ∧ (∀ s, alistGet? md VERSION_FIELD = some (.str s) →
          cellString row VERSION_FIELD = some s) := by
  simp only [_insert_source_table_item] at h
  rcases hv : _validate_fields wh md false with er | u
  · rw [hv] at h
    exact absurd h (fun hh => Except.noConfusion hh)
  · rw [hv, exceptBind_ok] at h
    rcases hsel : getSelectedEntry wh with er | e
    · rw [hsel] at h
      exact absurd h (fun hh => Except.noConfusion hh)
    · rw [hsel, exceptBind_ok] at h
      rcases henc : _encode_metadata wh md with er | enc
      · rw [henc] at h
        exact absurd h (fun hh => Except.noConfusion hh)
      · rw [henc, exceptBind_ok] at h
        simp only [putItemNew] at h
        split at h
        · exact absurd h (fun hh => Except.noConfusion hh)
        · rename_i hcond
          have hw2 : wh2 = { wh with
              sourceTable := wh.sourceTable ++ [⟨_format_dynamo e enc⟩] } :=
            (Except.ok.inj h).symm
          refine ⟨⟨_format_dynamo e enc⟩, by rw [hw2], ?_, ?_⟩
          · intro r hr
            have hfalse : (wh.sourceTable.any
                (fun r => decide (rowKey r = rowKey ⟨_format_dynamo e enc⟩))) = false := by
              rcases ha : wh.sourceTable.any
                  (fun r => decide (rowKey r = rowKey ⟨_format_dynamo e enc⟩)) with - | -
              · rfl
              · exact absurd ha hcond
            rw [List.any_eq_false] at hfalse
            simpa using hfalse r hr
          · intro s hs
            have hfold : md.foldlM
                (encodeFieldStep e
                  ([RETRIEVED_FIELD, RELEASE_FIELD] ++ requiredMetadataFieldsOf e)) []
                  = .ok enc := by
              simpa only [_encode_metadata, hsel, exceptBind_ok] using henc
            have henc' : alistGet? enc VERSION_FIELD = some (.lit s) :=
              encodeFold_str_field e _ VERSION_FIELD s md [] enc hfold rfl hs
            exact cellString_format e enc VERSION_FIELD (.lit s) henc'

/-- The `source_version` entry written by the store-source path survives the
subsequent metadata writes (all later keys differ from `source_version`). -/
theorem version_after_sets (m : Metadata) (rk cid : String) (b : Bool) (md5v s3k : String) :
    alistGet? (alistSet (alistSet (alistSet (alistSet (alistSet m VERSION_FIELD (.str rk))
        COLLECTION_ID (.str cid)) BYTES_FIELD (.bool b)) MD5_FIELD (.str md5v))
        S3_KEY_FIELD (.str s3k)) VERSION_FIELD = some (.str rk) := by
  rw [alistGet?_alistSet_ne _ _ _ _ (by decide), alistGet?_alistSet_ne _ _ _ _ (by decide),
    alistGet?_alistSet_ne _ _ _ _ (by decide), alistGet?_alistSet_ne _ _ _ _ (by decide),
    alistGet?_alistSet_self]

/-- Claim C3: `store(file, force_store=true)` (`parsed_file=false`) runs the
store-source path unconditionally - no duplicate check can produce
`ALREADY_EXIST` - and on success it has stored the file as one new row whose
fresh `source_version` is `<epoch_of_retrieved_date>_<uid>`. -/
theorem force_store_new_version
    (wh wh' : Warehouse) (file file' : SFile) (uid : String) (resp : StoreResp)
    (h : store wh file false true Option.none Option.none uid = .ok (wh', file', resp)) :
    resp.status_code = .SUCCESS
    ∧ (∃ d, alistGet? file.metadata RETRIEVED_FIELD = some (.datetime d)
        ∧ resp.source_version = toString (timestampFromDatetime d) ++ "_" ++ uid)
    ∧ (∃ row, wh'.sourceTable = wh.sourceTable ++ [row]
        ∧ cellString row VERSION_FIELD = some resp.source_version
        ∧ ∀ r ∈ wh.sourceTable, rowKey r ≠ rowKey row) := by
  simp only [store, Bool.false_eq_true, if_false, if_true] at h
  rcases hpk : get_primary_key wh file.metadata with er | pkeys
  · rw [hpk] at h
    exact absurd h (fun hh => Except.noConfusion hh)
  · rw [hpk, exceptBind_ok] at h
    simp only [storeSourceStep] at h
    rcases hhk : _generate_hash_key_meta wh file.metadata with er | hk
    · rw [hhk] at h
      exact absurd h (fun hh => Except.noConfusion hh)
    · rw [hhk, exceptBind_ok] at h
      rcases hrk : _generate_range_key
          (alistSet file.metadata SRC_HASH (.str hk)) uid with er | rk
      · rw [hrk] at h
        exact absurd h (fun hh => Except.noConfusion hh)
      · rw [hrk, exceptBind_ok] at h
        rcases hvf : _validate_fields wh _ false with er | u
        · rw [hvf] at h
          exact absurd h (fun hh => Except.noConfusion hh)
        · rw [hvf, exceptBind_ok] at h
          rcases hs3 : _s3_insert wh _ Option.none with er | p
          · rw [hs3] at h
            exact absurd h (fun hh => Except.noConfusion hh)
          · rcases p with ⟨wh1, s3key⟩
            rw [hs3, exceptBind_ok] at h
            rcases hins : _insert_source_table_item wh1 _ with er | wh2
            · rw [hins] at h
              exact absurd h (fun hh => Except.noConfusion hh)
            · rw [hins, exceptBind_ok] at h
              rcases hgv : get_source_version _ with er | version
              · rw [hgv] at h
                exact absurd h (fun hh => Except.noConfusion hh)
              · rw [hgv, exceptBind_ok] at h
                have hinj := Except.ok.inj h
                have hwh : wh2 = wh' := congrArg Prod.fst hinj
                have hresp : resp = ⟨pkeys, version, .SUCCESS, Option.none⟩ :=
                  (congrArg (fun q => q.2.2) hinj).symm
                -- recover the version string from the metadata chain
                rcases generate_range_key_inversion _ uid rk hrk with ⟨d, hd, hrkeq⟩
                have hd0 : alistGet? file.metadata RETRIEVED_FIELD = some (.datetime d) := by
                  rwa [alistGet?_alistSet_ne file.metadata SRC_HASH RETRIEVED_FIELD
                    (.str hk) (by decide)] at hd
                have hmd6 := version_after_sets (alistSet file.metadata SRC_HASH (.str hk)) rk
                  (_get_collection_id wh) file.is_bytes (get_md5 file) ((wh1, s3key).2)
                have hveq : version = rk := by
                  simp only [get_source_version, hmd6] at hgv
                  exact (Except.ok.inj hgv).symm
                refine ⟨by rw [hresp], ⟨d, hd0, by rw [hresp]; simpa [hveq] using hrkeq⟩, ?_⟩
                rcases insert_source_item_inversion wh1 _ wh2 hins with ⟨row, htab, hfresh, hvc⟩
                refine ⟨row, ?_, ?_, ?_⟩
                · rw [← hwh, htab,
                    s3_insert_preserves_sourceTable wh _ Option.none wh1 s3key hs3]
                · rw [hresp]
                  simp only [hveq]
                  exact hvc rk hmd6
                · intro r hr
                  exact hfresh r (by
                    rw [s3_insert_preserves_sourceTable wh _ Option.none wh1 s3key hs3]
                    exact hr)

/-- A fixture source file for store scenarios. -/
def fileC : SFile :=
  ⟨"body", true,
    [("k1", .int 5), (RETRIEVED_FIELD, .datetime dtC), (RELEASE_FIELD, .datetime dtC)]⟩

/-- The row the store path writes for `fileC` with uid `u1`. -/
def rowCF : DynamoRow :=
  ⟨[("k1", .N (.ofInt 5)), (RETRIEVED_FIELD, .N (.ofInt 600)), (RELEASE_FIELD, .N (.ofInt 600)),
    (SRC_HASH, .S (.lit "db/coll/sha256.5")), (VERSION_FIELD, .S (.lit "600_u1")),
    (COLLECTION_ID, .S (.lit "db_coll")), (BYTES_FIELD, .S (.ofInt 1)),
    (MD5_FIELD, .S (.lit "md5.body")), (S3_KEY_FIELD, .S (.lit "db/coll/600_u1_sha256.5"))]⟩

/-- `fileC`'s metadata after the store path mutated it. -/
def md6C : Metadata :=
  [("k1", .int 5), (RETRIEVED_FIELD, .datetime dtC), (RELEASE_FIELD, .datetime dtC),
   (SRC_HASH, .str "db/coll/sha256.5"), (VERSION_FIELD, .str "600_u1"),
   (COLLECTION_ID, .str "db_coll"), (BYTES_FIELD, .bool true),
   (MD5_FIELD, .str "md5.body"), (S3_KEY_FIELD, .str "db/coll/600_u1_sha256.5")]

/-- The fixture warehouse after storing `fileC`. -/
def whCF : Warehouse :=
  ⟨"db", "coll", [("db_coll", entryC)], [rowCF], [("db/coll/600_u1_sha256.5", "body")], [],
    Option.none⟩

/-- `fileC` after the store path mutated its metadata dict. -/
def fileCF : SFile := ⟨"body", true, md6C⟩

/-- The response of the first store of `fileC`. -/
def respCF : StoreResp := ⟨[.int 5], "600_u1", .SUCCESS, Option.none⟩

/-- Witness for claim C3 at a concrete input: force-storing `fileC` into the
empty fixture warehouse. -/
theorem force_store_witness :
    respCF.status_code = .SUCCESS
    ∧ (∃ d, alistGet? fileC.metadata RETRIEVED_FIELD = some (.datetime d)
        ∧ respCF.source_version = toString (timestampFromDatetime d) ++ "_" ++ "u1")
    ∧ (∃ row, whCF.sourceTable = whC.sourceTable ++ [row]
        ∧ cellString row VERSION_FIELD = some respCF.source_version
        ∧ ∀ r ∈ whC.sourceTable, rowKey r ≠ rowKey row) :=
  force_store_new_version whC whCF fileC fileCF "u1" respCF rfl

/-! ## Claim C2 -/

theorem pyEq_str_self (s : String) : pyEq (.str s) (.str s) = true := by
  simp [pyEq, PyValue.numVal?]

/-- The second-store decision against an existing identical row: when the
latest-version query returns a row whose decoded metadata carries the new
file's own md5, `store` (no `force_store`, no `compare_source`) answers
`ALREADY_EXIST` with the stored row's `source_version` and changes
nothing. -/
theorem store_already_exists
    (wh : Warehouse) (file : SFile) (e : RegEntry) (u hk v : String)
    (pkeys : List PyValue) (row : DynamoRow) (m : Metadata)
    (hpk : get_primary_key wh file.metadata = .ok pkeys)
    (hhash : _generate_hash_key_vals wh pkeys = .ok hk)
    (hquery : evalFileQuery wh.sourceTable hk false = [row])
    (hdec : _decode_metadata wh (_sanitize_dynamo row.cells) = .ok m)
    (hreg : getSelectedEntry wh = .ok e)
    (hlm : (requiredMetadataFieldsOf e).contains LAST_MODIFIED_FIELD = false)
    (hmd5 : alistGet? m MD5_FIELD = some (.str (get_md5 file)))
    (hver : alistGet? m VERSION_FIELD = some (.str v)) :
    store wh file false false Option.none Option.none u
      = .ok (wh, file, ⟨pkeys, v, .ALREADY_EXIST, Option.none⟩) := by
  simp only [store, Bool.false_eq_true, if_false, hpk, exceptBind_ok, retrieve, hhash,
    hquery, retrieveItemOfRow, hdec, if_true, hreg, hmd5, pyEq_str_self, hlm,
    get_source_version, hver]

/-- A fixture source file with symbolic body `c`. -/
def fileC2 (c : String) : SFile :=
  ⟨c, true, [("k1", .int 5), (RETRIEVED_FIELD, .datetime dtC), (RELEASE_FIELD, .datetime dtC)]⟩

/-- Claim C2: storing the same file twice into the fixture collection (no
`force_store`, no `compare_source`) yields `SUCCESS` with some version `v`
on the first call and `ALREADY_EXIST` with the same `v` on the second call,
storing nothing new the second time (the stored md5 equals the new file's
md5), for every file body `c` and uids `u₁`, `u₂`. -/
theorem store_twice_same_version (c u₁ u₂ : String) :
    ∃ wh₁ f₁ wh₂ f₂ v,
      store whC (fileC2 c) false false Option.none Option.none u₁
          = .ok (wh₁, f₁, ⟨[.int 5], v, .SUCCESS, Option.none⟩)
      ∧ store wh₁ f₁ false false Option.none Option.none u₂
          = .ok (wh₂, f₂, ⟨[.int 5], v, .ALREADY_EXIST, Option.none⟩)
      ∧ wh₂ = wh₁ ∧ f₂ = f₁ := by
  refine ⟨_, _, _, _, _, rfl, ?_, rfl, rfl⟩
  exact store_already_exists _ _ entryC u₂ _ _ _ _ _ rfl rfl rfl rfl rfl rfl rfl rfl

end DataWarehouse
